import Mathlib

/-!
# Verification of the Truck-Driver-Logbook HOS planning core

A shallow embedding, in Lean 4, of the Hours-of-Service planning core of the
`django-tdlogbook` repository:

* `core/routes/services.py` — the stop planner `calculate_hos_stops`, the
  interpolation helper `interpolate_point_along_route`, and `reverse_geocode`;
* `core/routes/logbook_generator.py` — the logbook transformer (timeline
  construction, midnight split, gap fill, daily totals);
* `core/hos/event_validators.py` — the compliance validators
  `ensure_driving_limits` and `validate_cycle_hours`.

Modelling conventions:

* Clock instants and durations are rational numbers of hours (`ℚ`); a `datetime`
  `t` is represented by its hour offset from a fixed epoch, so midnight
  boundaries are the integer multiples of 24 and `t.date()` is `⌊t / 24⌋`.
  ISO-8601 timestamp strings round-trip losslessly through
  `datetime.fromisoformat`, so scheduled times are kept as `ℚ` as well.
* Python floats are modelled as exact rationals.
* Python's `round(x, n)` is modelled as rounding `x·10ⁿ` to the nearest
  integer; every theorem that touches rounding only uses the bound
  `|round₂ x − x| ≤ 1/200`, which holds for the half-to-even convention of
  Python as well.
* Network calls (reverse geocoding, the haversine metric used for arc length)
  are passed in as explicit function parameters, since they influence only the
  coordinate and label fields of the output, never control flow.
-/

namespace TDLogbook

/-- Round to 2 decimal places (Python `round(x, 2)`). -/
def round2 (x : ℚ) : ℚ := (round (100 * x) : ℤ) / 100

/-- Round to 1 decimal place (Python `round(x, 1)`). -/
def round1 (x : ℚ) : ℚ := (round (10 * x) : ℤ) / 10

theorem abs_round2_sub_le (x : ℚ) : |round2 x - x| ≤ 1 / 200 := by
  have h := abs_sub_round (100 * x)
  rw [abs_sub_comm] at h
  rw [round2]
  have heq : ((round (100 * x) : ℤ) : ℚ) / 100 - x = ((round (100 * x) : ℤ) - 100 * x) / 100 := by
    ring
  rw [heq, abs_div]
  have h100 : |(100 : ℚ)| = 100 := by norm_num
  rw [h100]
  linarith [h]

/-! ## Duty-status codes (`core/hos/rules.py`, `core/routes/logbook_generator.py`) -/

def STATUS_OFF_DUTY : String := "OFF_DUTY"
def STATUS_SLEEPER : String := "SLEEPER"
def STATUS_DRIVING : String := "DRIVING"
def STATUS_ON_DUTY : String := "ON_DUTY"

/-! ## Rule constants

`core/hos/rules.py` (defaults; the environment-variable overrides are out of
scope) and the `HOS_*` constants of `core/routes/services.py`. -/

def MAX_DRIVING_HOURS : ℚ := 11
def MAX_ON_DUTY_WINDOW : ℚ := 14
def MAX_CYCLE_HOURS : ℚ := 70
def MINIMUM_REST_HOURS : ℚ := 10
def BREAK_REQUIRED_AFTER_HOURS : ℚ := 8

def HOS_MAX_DRIVING_BEFORE_BREAK : ℚ := 8
def HOS_BREAK_DURATION : ℚ := 30
def HOS_MAX_DRIVING_DAILY : ℚ := 11
def HOS_MAX_ON_DUTY_WINDOW : ℚ := 14
def HOS_REST_DURATION : ℚ := 10 * 60
def HOS_FUEL_INTERVAL_MILES : ℚ := 1000
def HOS_FUEL_STOP_DURATION : ℚ := 30
def HOS_PICKUP_DURATION : ℚ := 60
def HOS_DROPOFF_DURATION : ℚ := 60

/-! ## Reverse geocoding (`core/routes/services.py`, `reverse_geocode`) -/

/-- The `address` object of a Nominatim response, as consumed by
`_parse_address_components`: each field is absent (`none`) or a string. -/
structure NominatimAddress where
  city : Option String
  town : Option String
  village : Option String
  hamlet : Option String
  municipality : Option String
  county : Option String
  state : Option String
  region : Option String
deriving DecidableEq

/-- A successful Nominatim reverse-geocoding payload. -/
structure NominatimResult where
  display_name : Option String
  address : NominatimAddress
deriving DecidableEq

/-- The observable outcome of the reverse-geocoding HTTP request:
the request itself fails (`requests.RequestException`, including a non-2xx
status raised by `raise_for_status`), or the JSON body carries an `"error"`
field, or a payload is delivered. -/
inductive NominatimOutcome where
  | requestFailure
  | errorField
  | success (result : NominatimResult)
deriving DecidableEq

structure GeocodingResult where
  lat : ℚ
  lng : ℚ
  display_name : String
  city : String
  state : String
deriving DecidableEq

/-- Python `a or b` on strings: the first operand unless it is falsy (empty). -/
def strOr (a b : String) : String := if a = "" then b else a

/-- Python `d.get(k, default) or …` chain on optional fields. -/
def optStr (a : Option String) : String := a.getD ""

/-- `_parse_address_components` without the state-abbreviation table (the table
is a finite relabelling that none of the claims mention): the city is the first
truthy value among the candidate fields, else `"Unknown"`; the state falls back
from `state` to `region` to `""`.  The `" County"`-stripping on the county
fallback is likewise a pure string relabelling, kept here as-is. -/
def parse_address_components (r : NominatimResult) : String × String :=
  let a := r.address
  let city :=
    strOr (optStr a.city)
      (strOr (optStr a.town)
        (strOr (optStr a.village)
          (strOr (optStr a.hamlet)
            (strOr (optStr a.municipality)
              (strOr ((optStr a.county).replace " County" "")
                "Unknown")))))
  let state := (a.state.getD (optStr a.region))
  (city, state)

/-- Format used for the fallback display name `f"{lat:.4f}, {lng:.4f}"`; the
exact text never matters to any claim, so it is kept abstract but total. -/
def coordLabel (lat lng : ℚ) : String :=
  toString (round (10000 * lat)) ++ ", " ++ toString (round (10000 * lng))

/-- `reverse_geocode(lat, lng)` on a cache miss, as a function of the provider
outcome.  On a request failure, and on an `"error"` field in the body, it
returns the fallback result instead of raising; otherwise it parses the
address components. -/
def reverse_geocode (outcome : NominatimOutcome) (lat lng : ℚ) : GeocodingResult :=
  match outcome with
  | .requestFailure =>
      { lat := lat, lng := lng, display_name := coordLabel lat lng
        city := "Unknown", state := "" }
  | .errorField =>
      { lat := lat, lng := lng, display_name := coordLabel lat lng
        city := "Unknown", state := "" }
  | .success r =>
      let cs := parse_address_components r
      { lat := lat, lng := lng
        display_name := r.display_name.getD (coordLabel lat lng)
        city := cs.1, state := cs.2 }

/-! ## Route interpolation (`interpolate_point_along_route`)

The source walks the polyline accumulating haversine segment lengths.  The
haversine metric itself is a transcendental real-valued function; the
interpolation logic is verified parametrically in the segment-distance
function `dist`, of which the haversine distance (a nonnegative metric) is an
instance.  Geometry points are `(lng, lat)` pairs as delivered by OSRM; the
function returns `(lat, lng)`.  The source raises `ValueError` on an empty
geometry, modelled by `Option`. -/

/-- One step of the `for i in range(len(geometry) - 1)` loop, with `cum` the
`cumulative_distance` accumulator.  When only one vertex remains the loop is
exhausted and the last point is returned. -/
def interpolateLoop (dist : (ℚ × ℚ) → (ℚ × ℚ) → ℚ) (target : ℚ) :
    ℚ → List (ℚ × ℚ) → Option (ℚ × ℚ)
  | _, [] => none
  | _, [p] => some (p.2, p.1)
  | cum, p1 :: p2 :: rest =>
      let segment_distance := dist p1 p2
      if target ≤ cum + segment_distance then
        let remaining := target - cum
        let ratio := if 0 < segment_distance then remaining / segment_distance else 0
        some (p1.2 + (p2.2 - p1.2) * ratio, p1.1 + (p2.1 - p1.1) * ratio)
      else
        interpolateLoop dist target (cum + segment_distance) (p2 :: rest)

/-- `interpolate_point_along_route(geometry, target_distance_meters)`. -/
def interpolate_point_along_route (dist : (ℚ × ℚ) → (ℚ × ℚ) → ℚ)
    (geometry : List (ℚ × ℚ)) (target : ℚ) : Option (ℚ × ℚ) :=
  interpolateLoop dist target 0 geometry

/-- Total polyline arc length: the sum of `dist` over consecutive vertices. -/
def polylineLength (dist : (ℚ × ℚ) → (ℚ × ℚ) → ℚ) : List (ℚ × ℚ) → ℚ
  | [] => 0
  | [_] => 0
  | p1 :: p2 :: rest => dist p1 p2 + polylineLength dist (p2 :: rest)

/-- Arc length of the first `k` polyline segments. -/
def cumLength (dist : (ℚ × ℚ) → (ℚ × ℚ) → ℚ) : List (ℚ × ℚ) → ℕ → ℚ
  | _, 0 => 0
  | p1 :: p2 :: rest, k + 1 => dist p1 p2 + cumLength dist (p2 :: rest) k
  | _, _ + 1 => 0

theorem polylineLength_nonneg (dist : (ℚ × ℚ) → (ℚ × ℚ) → ℚ)
    (hnn : ∀ p q, 0 ≤ dist p q) :
    ∀ geom, 0 ≤ polylineLength dist geom
  | [] => le_refl 0
  | [_] => le_refl 0
  | p1 :: p2 :: rest => by
      have h := polylineLength_nonneg dist hnn (p2 :: rest)
      simp only [polylineLength]
      exact add_nonneg (hnn p1 p2) h

theorem cumLength_nonneg (dist : (ℚ × ℚ) → (ℚ × ℚ) → ℚ)
    (hnn : ∀ p q, 0 ≤ dist p q) :
    ∀ geom k, 0 ≤ cumLength dist geom k
  | [], 0 => by simp [cumLength]
  | [_], 0 => by simp [cumLength]
  | _ :: _ :: _, 0 => by simp [cumLength]
  | [], _ + 1 => by simp [cumLength]
  | [_], _ + 1 => by simp [cumLength]
  | p1 :: p2 :: rest, k + 1 => by
      have h := cumLength_nonneg dist hnn (p2 :: rest) k
      simp only [cumLength]
      exact add_nonneg (hnn p1 p2) h

/-! ## The logbook segment type (`core/routes/logbook_generator.py`)

`LogbookSegment` is the intermediate format of the logbook transformer; the
engine's `DutyEvent` has exactly the same shape (start, end, status, city,
state, remark) and the validators only read those fields, so one structure
serves both. -/

structure LogbookSegment where
  start_time : ℚ
  end_time : ℚ
  status : String
  city : String
  state : String
  remark : String
deriving DecidableEq

/-- `duration_hours` property of `LogbookSegment` / `DutyEvent`. -/
def LogbookSegment.duration_hours (s : LogbookSegment) : ℚ := s.end_time - s.start_time

/-- `t.date()`: the calendar-day index of an instant (midnights are the
integer multiples of 24 h). -/
def dateOf (t : ℚ) : ℤ := ⌊t / 24⌋

theorem lt_next_midnight (t : ℚ) : t < 24 * (dateOf t + 1) := by
  have h := Int.lt_floor_add_one (t / 24)
  rw [dateOf]
  nlinarith [h]

theorem midnight_le (t : ℚ) : 24 * (dateOf t : ℚ) ≤ t := by
  have h := Int.floor_le (t / 24)
  rw [dateOf]
  nlinarith [h]

theorem dateOf_midnight (k : ℤ) : dateOf (24 * k) = k := by
  rw [dateOf]
  rw [show ((24 : ℚ) * k) / 24 = (k : ℚ) by ring]
  exact Int.floor_intCast k

/-! ## Midnight split (`_split_segments_at_midnight`) -/

/-- The code after the `while` loop: the final segment from the last midnight
to the actual end, emitted only when non-degenerate. -/
def splitFinal (seg : LogbookSegment) (current_start : ℚ) : List LogbookSegment :=
  if current_start < seg.end_time then
    [{ start_time := current_start, end_time := seg.end_time, status := seg.status,
       city := seg.city, state := seg.state,
       remark := seg.remark ++ " (cont'd from prev day)" }]
  else []

/-- The `while current_date < end_date` loop of `_split_segments_at_midnight`,
with the iteration count made explicit (the loop advances `current_date` by
one per iteration, so `(end_date - start_date).toNat` iterations suffice). -/
def splitLoop (seg : LogbookSegment) (end_date : ℤ) :
    ℕ → ℚ → ℤ → List LogbookSegment
  | 0, current_start, _ => splitFinal seg current_start
  | n + 1, current_start, current_date =>
      if current_date < end_date then
        { start_time := current_start, end_time := 24 * ((current_date : ℚ) + 1),
          status := seg.status, city := seg.city, state := seg.state,
          remark := seg.remark ++ " (cont'd)" } ::
          splitLoop seg end_date n (24 * ((current_date : ℚ) + 1)) (current_date + 1)
      else splitFinal seg current_start

/-- Split one segment at midnight boundaries. -/
def splitSegment (seg : LogbookSegment) : List LogbookSegment :=
  let start_date := dateOf seg.start_time
  let end_date := dateOf seg.end_time
  if start_date = end_date then [seg]
  else splitLoop seg end_date (end_date - start_date).toNat seg.start_time start_date

/-- `_split_segments_at_midnight`. -/
def split_segments_at_midnight : List LogbookSegment → List LogbookSegment
  | [] => []
  | seg :: rest => splitSegment seg ++ split_segments_at_midnight rest

/-- Invariant proof for the split loop: every emitted part's end is at or
before the first midnight after its start, and its status/city/state equal the
original's; parts suffixed `" (cont'd)"` are exactly the parts ending at that
midnight. -/
theorem splitLoop_parts (seg : LogbookSegment) (end_date : ℤ)
    (hE : dateOf seg.end_time = end_date) :
    ∀ (n : ℕ) (cs : ℚ) (cd : ℤ), dateOf cs = cd → end_date ≤ cd + n →
      ∀ p ∈ splitLoop seg end_date n cs cd,
        p.end_time ≤ 24 * ((dateOf p.start_time : ℚ) + 1) ∧
        p.status = seg.status ∧ p.city = seg.city ∧ p.state = seg.state ∧
        ((p.remark = seg.remark ++ " (cont'd)" ∧
            p.end_time = 24 * ((dateOf p.start_time : ℚ) + 1)) ∨
          (p.remark = seg.remark ++ " (cont'd from prev day)" ∧
            p.end_time ≠ 24 * ((dateOf p.start_time : ℚ) + 1))) := by
  have final : ∀ (cs : ℚ) (cd : ℤ), dateOf cs = cd → end_date ≤ cd →
      ∀ p ∈ splitFinal seg cs,
        p.end_time ≤ 24 * ((dateOf p.start_time : ℚ) + 1) ∧
        p.status = seg.status ∧ p.city = seg.city ∧ p.state = seg.state ∧
        ((p.remark = seg.remark ++ " (cont'd)" ∧
            p.end_time = 24 * ((dateOf p.start_time : ℚ) + 1)) ∨
          (p.remark = seg.remark ++ " (cont'd from prev day)" ∧
            p.end_time ≠ 24 * ((dateOf p.start_time : ℚ) + 1))) := by
    intro cs cd hcs hle p hp
    rw [splitFinal] at hp
    by_cases h : cs < seg.end_time
    · rw [if_pos h] at hp
      simp only [List.mem_singleton] at hp
      subst hp
      have hend : seg.end_time < 24 * ((end_date : ℚ) + 1) := by
        have := lt_next_midnight seg.end_time
        rw [hE] at this
        exact this
      have hmono : (24 : ℚ) * ((end_date : ℚ) + 1) ≤ 24 * ((cd : ℚ) + 1) := by
        have : (end_date : ℚ) ≤ (cd : ℚ) := by exact_mod_cast hle
        linarith
      refine ⟨?_, rfl, rfl, rfl, Or.inr ⟨rfl, ?_⟩⟩
      · simp only [hcs]
        linarith
      · simp only [hcs]
        intro hcontra
        rw [hcontra] at hend
        linarith
    · rw [if_neg h] at hp
      exact absurd hp (List.not_mem_nil p)
  intro n
  induction n with
  | zero =>
      intro cs cd hcs hle p hp
      rw [splitLoop] at hp
      exact final cs cd hcs (by omega) p hp
  | succ n ih =>
      intro cs cd hcs hle p hp
      rw [splitLoop] at hp
      by_cases h : cd < end_date
      · rw [if_pos h] at hp
        rcases List.mem_cons.mp hp with hp | hp
        · subst hp
          refine ⟨?_, rfl, rfl, rfl, Or.inl ⟨rfl, ?_⟩⟩ <;> simp [hcs]
        · have hdm : dateOf (24 * ((cd : ℚ) + 1)) = cd + 1 := by
            have := dateOf_midnight (cd + 1)
            rw [show ((24 : ℚ) * ((cd : ℚ) + 1)) = 24 * ((cd + 1 : ℤ) : ℚ) by push_cast; ring]
            exact this
          exact ih (24 * ((cd : ℚ) + 1)) (cd + 1) hdm (by omega) p hp
      · rw [if_neg h] at hp
        exact final cs cd hcs (by omega) p hp

/-- helper: every part of `splitSegment` satisfies the split-loop invariant. -/
theorem splitSegment_parts (seg : LogbookSegment) (p : LogbookSegment)
    (hp : p ∈ splitSegment seg) :
    p.end_time ≤ 24 * ((dateOf p.start_time : ℚ) + 1) ∧
    (dateOf seg.start_time ≠ dateOf seg.end_time →
      p.status = seg.status ∧ p.city = seg.city ∧ p.state = seg.state ∧
      ((p.remark = seg.remark ++ " (cont'd)" ∧
          p.end_time = 24 * ((dateOf p.start_time : ℚ) + 1)) ∨
        (p.remark = seg.remark ++ " (cont'd from prev day)" ∧
          p.end_time ≠ 24 * ((dateOf p.start_time : ℚ) + 1)))) := by
  rw [splitSegment] at hp
  by_cases h : dateOf seg.start_time = dateOf seg.end_time
  · rw [if_pos h] at hp
    simp only [List.mem_singleton] at hp
    subst hp
    refine ⟨?_, fun hc => absurd h hc⟩
    have hlt := lt_next_midnight p.end_time
    rw [← h] at hlt
    exact le_of_lt hlt
  · rw [if_neg h] at hp
    have hmain := splitLoop_parts seg (dateOf seg.end_time) rfl
      ((dateOf seg.end_time - dateOf seg.start_time).toNat)
      seg.start_time (dateOf seg.start_time) rfl (by omega) p hp
    exact ⟨hmain.1, fun _ => ⟨hmain.2.1, hmain.2.2.1, hmain.2.2.2.1, hmain.2.2.2.2⟩⟩

/-! ## Claims C6, C7, C8 -/

/-- **C6.** Every segment output by the midnight-split step lies within a
single calendar date: its end time is no later than the first midnight
following its start time, for input events spanning any number of days. -/
theorem split_segments_at_midnight_single_day (segments : List LogbookSegment) :
    ∀ p ∈ split_segments_at_midnight segments,
      p.end_time ≤ 24 * ((dateOf p.start_time : ℚ) + 1) := by
  induction segments with
  | nil => intro p hp; simp [split_segments_at_midnight] at hp
  | cons seg rest ih =>
      intro p hp
      rw [split_segments_at_midnight] at hp
      rcases List.mem_append.mp hp with hp | hp
      · exact (splitSegment_parts seg p hp).1
      · exact ih p hp

def c6segs : List LogbookSegment :=
  [{ start_time := 23, end_time := 49, status := "DRIVING", city := "A", state := "B",
     remark := "r" }]

theorem c6segs_split_eval :
    split_segments_at_midnight c6segs =
      [{ start_time := 23, end_time := 24, status := "DRIVING", city := "A", state := "B",
         remark := "r (cont'd)" },
       { start_time := 24, end_time := 48, status := "DRIVING", city := "A", state := "B",
         remark := "r (cont'd)" },
       { start_time := 48, end_time := 49, status := "DRIVING", city := "A", state := "B",
         remark := "r (cont'd from prev day)" }] := by
  have h1 : dateOf (23 : ℚ) = 0 := by norm_num [dateOf]
  have h2 : dateOf (49 : ℚ) = 2 := by norm_num [dateOf]
  norm_num [split_segments_at_midnight, splitSegment, splitLoop, splitFinal, c6segs, h1, h2]
  exact ⟨rfl, rfl⟩

theorem split_segments_at_midnight_single_day_witness :
    ({ start_time := 24, end_time := 48, status := "DRIVING", city := "A", state := "B",
       remark := "r (cont'd)" } : LogbookSegment) ∈ split_segments_at_midnight c6segs ∧
    (48 : ℚ) ≤ 24 * ((dateOf (24 : ℚ) : ℚ) + 1) := by
  constructor
  · rw [c6segs_split_eval]
    simp
  · have h := split_segments_at_midnight_single_day c6segs
      { start_time := 24, end_time := 48, status := "DRIVING", city := "A", state := "B",
        remark := "r (cont'd)" } (by rw [c6segs_split_eval]; simp)
    exact h

/-- **C7 (amended).** In the midnight split of an event that crosses midnight,
status, city and state are preserved on every part; each part carries the
original remark suffixed either `" (cont'd)"` or `" (cont'd from prev day)"`,
and the `" (cont'd)"` suffix goes exactly to the parts that end at the
midnight boundary following their start (the head and middle parts), while the
final part, which ends strictly inside its day, gets
`" (cont'd from prev day)"`. -/
theorem splitSegment_remark_suffixes (seg : LogbookSegment)
    (hcross : dateOf seg.start_time < dateOf seg.end_time) :
    ∀ p ∈ splitSegment seg,
      p.status = seg.status ∧ p.city = seg.city ∧ p.state = seg.state ∧
      (p.remark = seg.remark ++ " (cont'd)" ∨
        p.remark = seg.remark ++ " (cont'd from prev day)") ∧
      (p.remark = seg.remark ++ " (cont'd)" ↔
        p.end_time = 24 * ((dateOf p.start_time : ℚ) + 1)) := by
  intro p hp
  obtain ⟨hs, hc, hst, hrem⟩ := (splitSegment_parts seg p hp).2 (by omega)
  refine ⟨hs, hc, hst, ?_, ?_⟩
  · rcases hrem with ⟨h1, _⟩ | ⟨h1, _⟩
    · exact Or.inl h1
    · exact Or.inr h1
  · constructor
    · intro hr
      rcases hrem with ⟨_, h2⟩ | ⟨h1, _⟩
      · exact h2
      · exfalso
        rw [h1] at hr
        have hdata := congrArg String.data hr
        simp only [String.data_append, List.append_cancel_left_eq] at hdata
        exact absurd (congrArg List.length hdata) (by decide)
    · intro he
      rcases hrem with ⟨h1, _⟩ | ⟨_, h2⟩
      · exact h1
      · exact absurd he h2

def c7seg : LogbookSegment :=
  { start_time := 23, end_time := 25, status := "DRIVING", city := "Dallas", state := "TX",
    remark := "Driving" }

theorem c7seg_split_eval :
    splitSegment c7seg =
      [{ start_time := 23, end_time := 24, status := "DRIVING", city := "Dallas",
         state := "TX", remark := "Driving (cont'd)" },
       { start_time := 24, end_time := 25, status := "DRIVING", city := "Dallas",
         state := "TX", remark := "Driving (cont'd from prev day)" }] := by
  have h1 : dateOf (23 : ℚ) = 0 := by norm_num [dateOf]
  have h2 : dateOf (25 : ℚ) = 1 := by norm_num [dateOf]
  norm_num [splitSegment, splitLoop, splitFinal, c7seg, h1, h2]
  exact ⟨rfl, rfl⟩

/-- **C7 counterexample.** The claim states that each tail part — a piece
starting at a midnight boundary — carries the remark suffixed `" (cont'd)"`.
For the event from 23:00 to 01:00 the (unique) tail part starts at midnight
yet its remark is `"Driving (cont'd from prev day)"`, not
`"Driving (cont'd)"`. -/
theorem splitSegment_tail_remark_counterexample :
    ∃ p ∈ splitSegment c7seg, p.start_time = 24 ∧
      p.remark ≠ c7seg.remark ++ " (cont'd)" := by
  refine ⟨{ start_time := 24, end_time := 25, status := "DRIVING", city := "Dallas",
            state := "TX", remark := "Driving (cont'd from prev day)" }, ?_, rfl, ?_⟩
  · rw [c7seg_split_eval]
    simp
  · intro h
    exact absurd (congrArg String.length h) (by decide)

theorem splitSegment_remark_suffixes_witness :
    dateOf c7seg.start_time < dateOf c7seg.end_time ∧
    ∀ p ∈ splitSegment c7seg,
      p.status = c7seg.status ∧ p.city = c7seg.city ∧ p.state = c7seg.state ∧
      (p.remark = c7seg.remark ++ " (cont'd)" ∨
        p.remark = c7seg.remark ++ " (cont'd from prev day)") ∧
      (p.remark = c7seg.remark ++ " (cont'd)" ↔
        p.end_time = 24 * ((dateOf p.start_time : ℚ) + 1)) :=
  ⟨by norm_num [dateOf, c7seg],
   splitSegment_remark_suffixes c7seg (by norm_num [dateOf, c7seg])⟩

/-- **C8.** `reverse_geocode` never raises for valid coordinates: on a
provider request failure, and on an `"error"` field in the provider response,
it returns the fallback result with city `"Unknown"` and empty state. -/
theorem reverse_geocode_fallback (lat lng : ℚ) :
    (reverse_geocode .requestFailure lat lng).city = "Unknown" ∧
    (reverse_geocode .requestFailure lat lng).state = "" ∧
    (reverse_geocode .errorField lat lng).city = "Unknown" ∧
    (reverse_geocode .errorField lat lng).state = "" :=
  ⟨rfl, rfl, rfl, rfl⟩

/-! ## Claim C9 — route interpolation -/

theorem interpolateLoop_last (dist : (ℚ × ℚ) → (ℚ × ℚ) → ℚ)
    (hnn : ∀ p q, 0 ≤ dist p q) :
    ∀ (geom : List (ℚ × ℚ)) (cum target : ℚ),
      List.Chain' (fun p q => 0 < dist p q) geom →
      cum + polylineLength dist geom ≤ target →
      ∀ (h : geom ≠ []),
        interpolateLoop dist target cum geom = some ((geom.getLast h).2, (geom.getLast h).1)
  | [], _, _, _, _, h => absurd rfl h
  | [p], cum, target, _, _, _ => by simp [interpolateLoop]
  | p1 :: p2 :: rest, cum, target, hch, hle, _ => by
      rw [List.chain'_cons] at hch
      obtain ⟨hd, hch'⟩ := hch
      rw [polylineLength] at hle
      simp only [interpolateLoop]
      by_cases hbr : target ≤ cum + dist p1 p2
      · rw [if_pos hbr]
        cases rest with
        | nil =>
            have hL : polylineLength dist [p2] = 0 := rfl
            rw [hL] at hle
            have htar : target - cum = dist p1 p2 := by linarith
            have hne : dist p1 p2 ≠ 0 := ne_of_gt hd
            rw [if_pos hd, htar, div_self hne]
            simp only [List.getLast]
            congr 1
            simp only [Prod.mk.injEq]
            constructor <;> ring
        | cons q rest' =>
            exfalso
            rw [List.chain'_cons] at hch'
            have hq := hch'.1
            have hL' : 0 ≤ polylineLength dist (q :: rest') :=
              polylineLength_nonneg dist hnn _
            rw [polylineLength] at hle
            linarith
      · rw [if_neg hbr]
        have hrec := interpolateLoop_last dist hnn (p2 :: rest) (cum + dist p1 p2) target
          hch' (by linarith) (by simp)
        rw [hrec]
        congr 1

theorem interpolateLoop_lerp (dist : (ℚ × ℚ) → (ℚ × ℚ) → ℚ)
    (hnn : ∀ p q, 0 ≤ dist p q) :
    ∀ (geom : List (ℚ × ℚ)) (cum target : ℚ) (i : ℕ)
      (hi : i < geom.length) (hi1 : i + 1 < geom.length),
      cum + cumLength dist geom i < target →
      target ≤ cum + cumLength dist geom (i + 1) →
      interpolateLoop dist target cum geom =
        some ((geom.get ⟨i, hi⟩).2 + ((geom.get ⟨i + 1, hi1⟩).2 - (geom.get ⟨i, hi⟩).2) *
                ((target - (cum + cumLength dist geom i)) /
                  dist (geom.get ⟨i, hi⟩) (geom.get ⟨i + 1, hi1⟩)),
              (geom.get ⟨i, hi⟩).1 + ((geom.get ⟨i + 1, hi1⟩).1 - (geom.get ⟨i, hi⟩).1) *
                ((target - (cum + cumLength dist geom i)) /
                  dist (geom.get ⟨i, hi⟩) (geom.get ⟨i + 1, hi1⟩)))
  | [], _, _, i, hi, hi1, _, _ => by simp at hi1
  | [p], _, _, i, hi, hi1, _, _ => by simp at hi1
  | p1 :: p2 :: rest, cum, target, 0, hi, hi1, hlow, hhigh => by
      simp only [cumLength, add_zero] at hlow hhigh
      have hd : 0 < dist p1 p2 := by linarith
      have hbr : target ≤ cum + dist p1 p2 := by linarith
      simp only [interpolateLoop, cumLength, add_zero]
      rw [if_pos hbr, if_pos hd]
      rfl
  | p1 :: p2 :: rest, cum, target, j + 1, hi, hi1, hlow, hhigh => by
      have hP : 0 ≤ cumLength dist (p2 :: rest) j := cumLength_nonneg dist hnn _ _
      simp only [cumLength] at hlow hhigh
      have hbr : ¬ target ≤ cum + dist p1 p2 := by linarith
      have hi' : j < (p2 :: rest).length := by
        simp only [List.length_cons] at hi ⊢; omega
      have hi1' : j + 1 < (p2 :: rest).length := by
        simp only [List.length_cons] at hi1 ⊢; omega
      have hrec := interpolateLoop_lerp dist hnn (p2 :: rest) (cum + dist p1 p2) target j
        hi' hi1' (by linarith) (by linarith)
      simp only [interpolateLoop]
      rw [if_neg hbr, hrec]
      simp only [List.get_cons_succ, cumLength]
      congr 2 <;> ring

/-- **C9.** For a non-empty polyline, interpolation at a target at or beyond
the polyline's total arc length returns the last vertex (first conjunct, for a
polyline whose consecutive vertices are at positive distance); for a target
that falls inside segment `i`, it returns the linear interpolation of that
segment's endpoint latitudes and longitudes in proportion to the remaining
distance within the segment (second conjunct).  Stated parametrically in the
segment-distance function; the haversine distance is a nonnegative instance. -/
theorem interpolate_point_along_route_spec (dist : (ℚ × ℚ) → (ℚ × ℚ) → ℚ)
    (geometry : List (ℚ × ℚ)) (hnn : ∀ p q, 0 ≤ dist p q) :
    (∀ (h : geometry ≠ []), List.Chain' (fun p q => 0 < dist p q) geometry →
      ∀ target, polylineLength dist geometry ≤ target →
        interpolate_point_along_route dist geometry target =
          some ((geometry.getLast h).2, (geometry.getLast h).1)) ∧
    (∀ (target : ℚ) (i : ℕ) (hi : i < geometry.length) (hi1 : i + 1 < geometry.length),
      cumLength dist geometry i < target →
      target ≤ cumLength dist geometry (i + 1) →
      interpolate_point_along_route dist geometry target =
        some ((geometry.get ⟨i, hi⟩).2 +
                ((geometry.get ⟨i + 1, hi1⟩).2 - (geometry.get ⟨i, hi⟩).2) *
                ((target - cumLength dist geometry i) /
                  dist (geometry.get ⟨i, hi⟩) (geometry.get ⟨i + 1, hi1⟩)),
              (geometry.get ⟨i, hi⟩).1 +
                ((geometry.get ⟨i + 1, hi1⟩).1 - (geometry.get ⟨i, hi⟩).1) *
                ((target - cumLength dist geometry i) /
                  dist (geometry.get ⟨i, hi⟩) (geometry.get ⟨i + 1, hi1⟩)))) := by
  constructor
  · intro h hch target hlen
    rw [interpolate_point_along_route]
    exact interpolateLoop_last dist hnn geometry 0 target hch (by linarith) h
  · intro target i hi hi1 hlow hhigh
    rw [interpolate_point_along_route]
    have h := interpolateLoop_lerp dist hnn geometry 0 target i hi hi1
      (by rw [zero_add]; exact hlow) (by rw [zero_add]; exact hhigh)
    simp only [zero_add] at h
    exact h

def c9dist : (ℚ × ℚ) → (ℚ × ℚ) → ℚ := fun _ _ => 1

def c9geom : List (ℚ × ℚ) := [(0, 0), (2, 4)]

theorem interpolate_point_along_route_spec_witness :
    interpolate_point_along_route c9dist c9geom 1 = some (4, 2) ∧
    interpolate_point_along_route c9dist c9geom (1 / 2) = some (2, 1) := by
  have hnn : ∀ p q, 0 ≤ c9dist p q := fun _ _ => by norm_num [c9dist]
  constructor
  · have h := (interpolate_point_along_route_spec c9dist c9geom hnn).1
      (by simp [c9geom]) (by simp [c9geom, List.chain'_pair, c9dist])
      1 (by norm_num [polylineLength, c9geom, c9dist])
    rw [h]
    rfl
  · have h := (interpolate_point_along_route_spec c9dist c9geom hnn).2
      (1 / 2) 0 (by simp [c9geom]) (by simp [c9geom])
      (by norm_num [cumLength, c9geom, c9dist])
      (by norm_num [cumLength, c9geom, c9dist])
    rw [h]
    norm_num [cumLength, c9geom, c9dist]

/-! ## The stop planner (`calculate_hos_stops`, `core/routes/services.py`)

State-machine embedding of the Phase-2 `while` loop, with the iteration count
made an explicit fuel parameter (the source loop has no a-priori bound; every
theorem below holds for every fuel value, hence for however many iterations
the source executes).  The haversine metric and the reverse-geocoding provider
enter as function parameters (`dist`, `revGeo`): they only ever populate the
latitude/longitude and city/state fields of stops, never control flow.
`interpolate_point_along_route` raises `ValueError` on an empty geometry in
the source; here the planner totalizes that call with a `(0, 0)` default,
which callers with non-empty geometry never hit. -/

def meters_per_mile : ℚ := 160934 / 100

/-- A stop along the route.  Scheduled times are kept as rational instants
(the source serializes them to ISO-8601 strings, which round-trip losslessly).
The source's `DrivingSegment.start_city/...` fields, never assigned by the
planner, are omitted. -/
structure RouteStop where
  type : String
  lat : ℚ
  lng : ℚ
  label : String
  duration_minutes : ℚ
  distance_from_start_miles : ℚ
  driving_hours_from_start : ℚ
  scheduled_arrival : ℚ
  scheduled_departure : ℚ
  city : String
  state : String
deriving DecidableEq

structure DrivingSegment where
  start_miles : ℚ
  end_miles : ℚ
  start_time : ℚ
  end_time : ℚ
  hours : ℚ
deriving DecidableEq

/-- `sum(s.hours for s in segments)`. -/
def sumHours (segments : List DrivingSegment) : ℚ :=
  segments.foldl (fun a s => a + s.hours) 0

/-- The immutable inputs of the drive loop. -/
structure PlanParams where
  distance_miles : ℚ
  average_speed_mph : ℚ
  geometry : List (ℚ × ℚ)
  dist : (ℚ × ℚ) → (ℚ × ℚ) → ℚ
  revGeo : ℚ → ℚ → String × String
  skip_reverse_geocoding : Bool

/-- The mutable state of the drive loop (the "HOS engine state machine"
variables of `calculate_hos_stops`, plus the accumulating output lists). -/
structure PlanState where
  stops : List RouteStop
  segments : List DrivingSegment
  driving_since_break : ℚ
  driving_today : ℚ
  duty_window_start : ℚ
  miles_since_fuel : ℚ
  total_driving : ℚ
  current_distance_miles : ℚ
  current_time : ℚ
  segment_start_time : ℚ
  segment_start_miles : ℚ
deriving DecidableEq

def remaining_hours (p : PlanParams) (s : PlanState) : ℚ :=
  (p.distance_miles - s.current_distance_miles) / p.average_speed_mph

def hours_until_break (s : PlanState) : ℚ :=
  HOS_MAX_DRIVING_BEFORE_BREAK - s.driving_since_break

def hours_until_daily_limit (s : PlanState) : ℚ :=
  HOS_MAX_DRIVING_DAILY - s.driving_today

def hours_until_window_limit (s : PlanState) : ℚ :=
  HOS_MAX_ON_DUTY_WINDOW - (s.current_time - s.duty_window_start)

def hours_until_fuel (p : PlanParams) (s : PlanState) : ℚ :=
  (HOS_FUEL_INTERVAL_MILES - s.miles_since_fuel) / p.average_speed_mph

/-- The `min(...)` of the drive loop: a headroom enters the minimum only when
it exceeds 0.01 h (the source substitutes `float('inf')` otherwise, which is
the identity of `min`). -/
def hosMin (remaining hb hd hw hf : ℚ) : ℚ :=
  let m := min remaining 2
  let m := if 1 / 100 < hb then min m hb else m
  let m := if 1 / 100 < hd then min m hd else m
  let m := if 1 / 100 < hw then min m hw else m
  if 1 / 100 < hf then min m hf else m

def drive_hours (p : PlanParams) (s : PlanState) : ℚ :=
  hosMin (remaining_hours p s) (hours_until_break s) (hours_until_daily_limit s)
    (hours_until_window_limit s) (hours_until_fuel p s)

/-- The drive phase of one loop iteration: when the computed block is ≤ 0.01 h
the source sets `drive_hours = 0` and changes nothing; otherwise all four
counters, the distance and the clock advance. -/
def stepDriven (p : PlanParams) (s : PlanState) : PlanState :=
  let dh := drive_hours p s
  if dh ≤ 1 / 100 then s
  else
    let drive_miles := dh * p.average_speed_mph
    { s with
      driving_since_break := s.driving_since_break + dh
      driving_today := s.driving_today + dh
      total_driving := s.total_driving + dh
      miles_since_fuel := s.miles_since_fuel + drive_miles
      current_distance_miles := s.current_distance_miles + drive_miles
      current_time := s.current_time + dh }

/-- The stop-selection priority chain (`stop_needed` in the source). -/
def stop_needed (s : PlanState) : Option String :=
  if s.driving_today ≥ HOS_MAX_DRIVING_DAILY - 1 / 100 then some "REST"
  else if s.current_time - s.duty_window_start ≥ HOS_MAX_ON_DUTY_WINDOW - 1 / 100 then
    some "REST"
  else if s.driving_since_break ≥ HOS_MAX_DRIVING_BEFORE_BREAK - 1 / 100 then some "BREAK"
  else if s.miles_since_fuel ≥ HOS_FUEL_INTERVAL_MILES - 1 then some "FUEL"
  else none

/-- Location of a stop: interpolate the route at the current distance. -/
def stopLocation (p : PlanParams) (s : PlanState) : ℚ × ℚ :=
  (interpolate_point_along_route p.dist p.geometry
    (s.current_distance_miles * meters_per_mile)).getD (0, 0)

/-- City/state of a stop: `("En Route", "")` when reverse geocoding is
skipped, else the provider's answer (the source's `try/except` fallback is
subsumed by the provider function being total). -/
def stopCityState (p : PlanParams) (lat lng : ℚ) : String × String :=
  if p.skip_reverse_geocoding then ("En Route", "") else p.revGeo lat lng

/-- Insert one stop: close the current driving segment, append the stop
record, apply the stop-specific counter resets, then start a new segment at
the (updated) clock and distance. -/
def insertStop (p : PlanParams) (kind : String) (s : PlanState) : PlanState :=
  let seg : DrivingSegment :=
    { start_miles := s.segment_start_miles, end_miles := s.current_distance_miles,
      start_time := s.segment_start_time, end_time := s.current_time,
      hours := s.total_driving - sumHours s.segments }
  let s1 := { s with segments := s.segments ++ [seg] }
  let loc := stopLocation p s
  let cs := stopCityState p loc.1 loc.2
  let s2 :=
    if kind = "REST" then
      let departure := s1.current_time + HOS_REST_DURATION / 60
      let stop : RouteStop :=
        { type := "REST", lat := loc.1, lng := loc.2,
          label := "10-hour Rest Period", duration_minutes := HOS_REST_DURATION,
          distance_from_start_miles := round1 s1.current_distance_miles,
          driving_hours_from_start := round2 s1.total_driving,
          scheduled_arrival := s1.current_time, scheduled_departure := departure,
          city := cs.1, state := cs.2 }
      { s1 with
        stops := s1.stops ++ [stop]
        current_time := departure
        driving_since_break := 0
        driving_today := 0
        duty_window_start := departure }
    else if kind = "BREAK" then
      let departure := s1.current_time + HOS_BREAK_DURATION / 60
      let stop : RouteStop :=
        { type := "BREAK", lat := loc.1, lng := loc.2,
          label := "30-minute Break", duration_minutes := HOS_BREAK_DURATION,
          distance_from_start_miles := round1 s1.current_distance_miles,
          driving_hours_from_start := round2 s1.total_driving,
          scheduled_arrival := s1.current_time, scheduled_departure := departure,
          city := cs.1, state := cs.2 }
      { s1 with
        stops := s1.stops ++ [stop]
        current_time := departure
        driving_since_break := 0 }
    else if kind = "FUEL" then
      let departure := s1.current_time + HOS_FUEL_STOP_DURATION / 60
      let stop : RouteStop :=
        { type := "FUEL", lat := loc.1, lng := loc.2,
          label := "Fuel Stop", duration_minutes := HOS_FUEL_STOP_DURATION,
          distance_from_start_miles := round1 s1.current_distance_miles,
          driving_hours_from_start := round2 s1.total_driving,
          scheduled_arrival := s1.current_time, scheduled_departure := departure,
          city := cs.1, state := cs.2 }
      { s1 with
        stops := s1.stops ++ [stop]
        current_time := departure
        miles_since_fuel := 0 }
    else s1
  { s2 with
    segment_start_time := s2.current_time
    segment_start_miles := s2.current_distance_miles }

/-- One iteration of the Phase-2 `while` loop. -/
def planStep (p : PlanParams) (s : PlanState) : PlanState :=
  let s1 := stepDriven p s
  match stop_needed s1 with
  | some kind =>
      if s1.current_distance_miles < p.distance_miles then insertStop p kind s1 else s1
  | none => s1

/-- The Phase-2 `while` loop, fuelled. -/
def planLoop (p : PlanParams) : ℕ → PlanState → PlanState
  | 0, s => s
  | n + 1, s =>
      if s.current_distance_miles < p.distance_miles then planLoop p n (planStep p s)
      else s

/-- Phase 1 of `calculate_hos_stops`: the initial planner state, with the
PICKUP stop (when included) already emitted and the clock advanced past it;
the 14-hour window starts at `start_time` and the first driving segment at
the post-pickup clock. -/
def planInit (geometry : List (ℚ × ℚ)) (start_time : ℚ) (include_pickup : Bool)
    (origin_city origin_state : String) : PlanState :=
  let pickup_stop : RouteStop :=
    { type := "PICKUP",
      lat := ((geometry.head?).map Prod.snd).getD 0,
      lng := ((geometry.head?).map Prod.fst).getD 0,
      label := "Pickup - Loading & Inspection",
      duration_minutes := HOS_PICKUP_DURATION,
      distance_from_start_miles := 0, driving_hours_from_start := 0,
      scheduled_arrival := start_time,
      scheduled_departure := start_time + HOS_PICKUP_DURATION / 60,
      city := origin_city, state := origin_state }
  let pickup_stops : List RouteStop := if include_pickup then [pickup_stop] else []
  let t1 := if include_pickup then start_time + HOS_PICKUP_DURATION / 60 else start_time
  { stops := pickup_stops, segments := [],
    driving_since_break := 0, driving_today := 0,
    duty_window_start := start_time, miles_since_fuel := 0, total_driving := 0,
    current_distance_miles := 0, current_time := t1,
    segment_start_time := t1, segment_start_miles := 0 }

/-- The post-loop final driving segment to the destination. -/
def planFinalSegment (distance_miles : ℚ) (s2 : PlanState) : PlanState :=
  if s2.segment_start_miles < distance_miles then
    { s2 with
      segments := s2.segments ++
        [{ start_miles := s2.segment_start_miles, end_miles := distance_miles,
           start_time := s2.segment_start_time, end_time := s2.current_time,
           hours := s2.total_driving - sumHours s2.segments }] }
  else s2

/-- Phase 3 of `calculate_hos_stops`: the DROPOFF stop (when included). -/
def planDropoff (geometry : List (ℚ × ℚ)) (distance_miles : ℚ) (include_dropoff : Bool)
    (destination_city destination_state : String) (s3 : PlanState) : PlanState :=
  let dropoff_stop : RouteStop :=
    { type := "DROPOFF",
      lat := ((geometry.getLast?).map Prod.snd).getD 0,
      lng := ((geometry.getLast?).map Prod.fst).getD 0,
      label := "Dropoff - Unloading & Paperwork",
      duration_minutes := HOS_DROPOFF_DURATION,
      distance_from_start_miles := round1 distance_miles,
      driving_hours_from_start := round2 s3.total_driving,
      scheduled_arrival := s3.current_time,
      scheduled_departure := s3.current_time + HOS_DROPOFF_DURATION / 60,
      city := destination_city, state := destination_state }
  if include_dropoff then
    { s3 with
      stops := s3.stops ++ [dropoff_stop]
      current_time := s3.current_time + HOS_DROPOFF_DURATION / 60 }
  else s3

/-- `calculate_hos_stops`.  The signature mirrors the source, including the
`duration_hours` and `current_cycle_hours` parameters; `fuel` bounds the
number of loop iterations and `dist`/`revGeo` are the provider oracles. -/
def calculate_hos_stops (fuel : ℕ) (dist : (ℚ × ℚ) → (ℚ × ℚ) → ℚ)
    (revGeo : ℚ → ℚ → String × String)
    (distance_miles duration_hours : ℚ) (geometry : List (ℚ × ℚ))
    (start_time : ℚ) (current_cycle_hours : ℚ) (average_speed_mph : ℚ)
    (include_pickup include_dropoff : Bool)
    (origin_city origin_state destination_city destination_state : String)
    (skip_reverse_geocoding : Bool) :
    List RouteStop × List DrivingSegment × ℚ :=
  let p : PlanParams :=
    { distance_miles := distance_miles, average_speed_mph := average_speed_mph,
      geometry := geometry, dist := dist, revGeo := revGeo,
      skip_reverse_geocoding := skip_reverse_geocoding }
  let s1 := planInit geometry start_time include_pickup origin_city origin_state
  let s2 := planLoop p fuel s1
  let s3 := planFinalSegment distance_miles s2
  let s4 := planDropoff geometry distance_miles include_dropoff destination_city
    destination_state s3
  (s4.stops, s4.segments, s4.current_time - start_time)

/-- **C10.** The planner output — stops, driving segments and total trip
hours — does not depend on the `duration_hours` or `current_cycle_hours`
arguments: two calls agreeing on every other argument coincide for arbitrary
values of those two. -/
theorem calculate_hos_stops_ignores_duration_and_cycle
    (fuel : ℕ) (dist : (ℚ × ℚ) → (ℚ × ℚ) → ℚ) (revGeo : ℚ → ℚ → String × String)
    (distance_miles : ℚ) (geometry : List (ℚ × ℚ)) (start_time : ℚ)
    (average_speed_mph : ℚ) (include_pickup include_dropoff : Bool)
    (origin_city origin_state destination_city destination_state : String)
    (skip_reverse_geocoding : Bool)
    (duration_hours₁ duration_hours₂ current_cycle_hours₁ current_cycle_hours₂ : ℚ) :
    calculate_hos_stops fuel dist revGeo distance_miles duration_hours₁ geometry
      start_time current_cycle_hours₁ average_speed_mph include_pickup include_dropoff
      origin_city origin_state destination_city destination_state skip_reverse_geocoding =
    calculate_hos_stops fuel dist revGeo distance_miles duration_hours₂ geometry
      start_time current_cycle_hours₂ average_speed_mph include_pickup include_dropoff
      origin_city origin_state destination_city destination_state skip_reverse_geocoding :=
  rfl

/-! ## Claims C4 and C5 — drive-block selection and stop selection/resets -/

/-- The drive-block duration exactly as the specification words it: the
minimum of the hours to destination, the 2-hour continuous-driving cap, and
those headrooms (break, daily, window, fuel) that are not already exhausted;
a headroom ≤ 0.01 h is excluded from the minimum. -/
def specDriveHours (remaining hb hd hw hf : ℚ) : ℚ :=
  ([hb, hd, hw, hf].filter (fun h => 1 / 100 < h)).foldl min (min remaining 2)

theorem hosMin_eq_specDriveHours (remaining hb hd hw hf : ℚ) :
    hosMin remaining hb hd hw hf = specDriveHours remaining hb hd hw hf := by
  rw [hosMin, specDriveHours]
  by_cases h1 : (100 : ℚ)⁻¹ < hb <;> by_cases h2 : (100 : ℚ)⁻¹ < hd <;>
    by_cases h3 : (100 : ℚ)⁻¹ < hw <;> by_cases h4 : (100 : ℚ)⁻¹ < hf <;>
    simp [h1, h2, h3, h4, List.filter_cons, decide_eq_true_eq]

/-- The net drive advance of one iteration (0 when the computed block is
within the 0.01 h tolerance). -/
def driveAdvance (p : PlanParams) (s : PlanState) : ℚ :=
  if drive_hours p s ≤ 1 / 100 then 0 else drive_hours p s

theorem driveAdvance_nonneg (p : PlanParams) (s : PlanState) : 0 ≤ driveAdvance p s := by
  rw [driveAdvance]
  split_ifs with h
  · exact le_refl 0
  · linarith [not_le.mp h]

theorem stepDriven_fields (p : PlanParams) (s : PlanState) :
    (stepDriven p s).driving_since_break = s.driving_since_break + driveAdvance p s ∧
    (stepDriven p s).driving_today = s.driving_today + driveAdvance p s ∧
    (stepDriven p s).total_driving = s.total_driving + driveAdvance p s ∧
    (stepDriven p s).miles_since_fuel =
      s.miles_since_fuel + driveAdvance p s * p.average_speed_mph ∧
    (stepDriven p s).current_distance_miles =
      s.current_distance_miles + driveAdvance p s * p.average_speed_mph ∧
    (stepDriven p s).current_time = s.current_time + driveAdvance p s ∧
    (stepDriven p s).duty_window_start = s.duty_window_start ∧
    (stepDriven p s).stops = s.stops ∧
    (stepDriven p s).segments = s.segments ∧
    (stepDriven p s).segment_start_time = s.segment_start_time ∧
    (stepDriven p s).segment_start_miles = s.segment_start_miles := by
  rw [stepDriven, driveAdvance]
  split_ifs with h <;> simp

/-- **C4.** In every iteration of the drive loop: the computed drive block
equals the spec's minimum — hours to destination, break/daily/window/fuel
headrooms and the 2-hour cap, with non-positive (≤ 0.01 h) headrooms excluded
(first conjunct); when that minimum exceeds the tolerance the clock and
distance advance by exactly it (second), otherwise nothing advances (third);
and an excluded headroom forces a stop in the same iteration whenever the
destination is not reached: an exhausted daily or window counter forces REST,
an exhausted break counter forces REST or BREAK (REST by priority), an
exhausted fuel headroom forces some stop, and the selected stop is in fact
inserted (last conjunct). -/
theorem planStep_drive_and_forcing (p : PlanParams) (s : PlanState)
    (hspeed : 0 < p.average_speed_mph) (hspeed100 : p.average_speed_mph ≤ 100) :
    drive_hours p s =
      specDriveHours (remaining_hours p s) (hours_until_break s)
        (hours_until_daily_limit s) (hours_until_window_limit s) (hours_until_fuel p s) ∧
    (1 / 100 < drive_hours p s →
      (stepDriven p s).current_time = s.current_time + drive_hours p s ∧
      (stepDriven p s).current_distance_miles =
        s.current_distance_miles + drive_hours p s * p.average_speed_mph) ∧
    (drive_hours p s ≤ 1 / 100 → stepDriven p s = s) ∧
    (hours_until_daily_limit s ≤ 1 / 100 →
      stop_needed (stepDriven p s) = some "REST") ∧
    (hours_until_window_limit s ≤ 1 / 100 →
      stop_needed (stepDriven p s) = some "REST") ∧
    (hours_until_break s ≤ 1 / 100 →
      stop_needed (stepDriven p s) = some "REST" ∨
        stop_needed (stepDriven p s) = some "BREAK") ∧
    (hours_until_fuel p s ≤ 1 / 100 → (stop_needed (stepDriven p s)).isSome) ∧
    (∀ kind, stop_needed (stepDriven p s) = some kind →
      (stepDriven p s).current_distance_miles < p.distance_miles →
      planStep p s = insertStop p kind (stepDriven p s)) := by
  obtain ⟨f1, f2, f3, f4, f5, f6, f7, -⟩ := stepDriven_fields p s
  have hadv := driveAdvance_nonneg p s
  refine ⟨hosMin_eq_specDriveHours _ _ _ _ _, ?_, ?_, ?_, ?_, ?_, ?_, ?_⟩
  · intro h
    have hone : driveAdvance p s = drive_hours p s := by
      rw [driveAdvance, if_neg (not_le.mpr h)]
    rw [f5, f6, hone]
    exact ⟨rfl, rfl⟩
  · intro h
    rw [stepDriven, if_pos h]
  · intro h
    have hdt : (stepDriven p s).driving_today ≥ HOS_MAX_DRIVING_DAILY - 1 / 100 := by
      rw [f2, hours_until_daily_limit] at *
      linarith
    rw [stop_needed, if_pos hdt]
  · intro h
    rw [stop_needed]
    split_ifs with h1 h2
    · rfl
    · rfl
    all_goals
      exfalso
      apply h2
      rw [f6, f7, hours_until_window_limit] at *
      linarith
  · intro h
    rw [stop_needed]
    split_ifs with h1 h2 h3
    · exact Or.inl rfl
    · exact Or.inl rfl
    · exact Or.inr rfl
    all_goals
      exfalso
      apply h3
      rw [f1, hours_until_break] at *
      linarith
  · intro h
    rw [stop_needed]
    split_ifs with h1 h2 h3 h4
    · rfl
    · rfl
    · rfl
    · rfl
    exfalso
    apply h4
    have hmul : HOS_FUEL_INTERVAL_MILES - s.miles_since_fuel ≤ p.average_speed_mph / 100 := by
      rw [hours_until_fuel, div_le_iff hspeed] at h
      ring_nf at h ⊢
      linarith
    have hdrive : 0 ≤ driveAdvance p s * p.average_speed_mph :=
      mul_nonneg hadv (le_of_lt hspeed)
    rw [f4, HOS_FUEL_INTERVAL_MILES] at *
    linarith
  · intro kind hk hlt
    unfold planStep
    simp only [hk, if_pos hlt]

/-- **C5.** When the planner inserts a stop it selects exactly one by strict
priority — REST when the daily-driving counter or the 14-hour window is
exhausted, else BREAK when the break counter is exhausted, else FUEL when the
fuel mileage is exhausted (first three conjuncts) — and the resets are
exactly: REST zeroes `driving_since_break` and `driving_today`, sets the
window start to the rest's end, and leaves the fuel mileage and the driving
total untouched; BREAK zeroes only `driving_since_break`; FUEL zeroes only
`miles_since_fuel`, neither resetting the break counter nor counting as
driving (clock advances by 30 min of non-driving time). -/
theorem stop_selection_and_resets (p : PlanParams) (s : PlanState) :
    (stop_needed s = some "REST" ↔
      (s.driving_today ≥ HOS_MAX_DRIVING_DAILY - 1 / 100 ∨
        s.current_time - s.duty_window_start ≥ HOS_MAX_ON_DUTY_WINDOW - 1 / 100)) ∧
    (stop_needed s = some "BREAK" ↔
      (¬ s.driving_today ≥ HOS_MAX_DRIVING_DAILY - 1 / 100 ∧
        ¬ s.current_time - s.duty_window_start ≥ HOS_MAX_ON_DUTY_WINDOW - 1 / 100 ∧
        s.driving_since_break ≥ HOS_MAX_DRIVING_BEFORE_BREAK - 1 / 100)) ∧
    (stop_needed s = some "FUEL" ↔
      (¬ s.driving_today ≥ HOS_MAX_DRIVING_DAILY - 1 / 100 ∧
        ¬ s.current_time - s.duty_window_start ≥ HOS_MAX_ON_DUTY_WINDOW - 1 / 100 ∧
        ¬ s.driving_since_break ≥ HOS_MAX_DRIVING_BEFORE_BREAK - 1 / 100 ∧
        s.miles_since_fuel ≥ HOS_FUEL_INTERVAL_MILES - 1)) ∧
    ((insertStop p "REST" s).driving_since_break = 0 ∧
      (insertStop p "REST" s).driving_today = 0 ∧
      (insertStop p "REST" s).current_time = s.current_time + HOS_REST_DURATION / 60 ∧
      (insertStop p "REST" s).duty_window_start = (insertStop p "REST" s).current_time ∧
      (insertStop p "REST" s).miles_since_fuel = s.miles_since_fuel ∧
      (insertStop p "REST" s).total_driving = s.total_driving) ∧
    ((insertStop p "BREAK" s).driving_since_break = 0 ∧
      (insertStop p "BREAK" s).driving_today = s.driving_today ∧
      (insertStop p "BREAK" s).duty_window_start = s.duty_window_start ∧
      (insertStop p "BREAK" s).miles_since_fuel = s.miles_since_fuel ∧
      (insertStop p "BREAK" s).current_time = s.current_time + HOS_BREAK_DURATION / 60 ∧
      (insertStop p "BREAK" s).total_driving = s.total_driving) ∧
    ((insertStop p "FUEL" s).miles_since_fuel = 0 ∧
      (insertStop p "FUEL" s).driving_since_break = s.driving_since_break ∧
      (insertStop p "FUEL" s).driving_today = s.driving_today ∧
      (insertStop p "FUEL" s).duty_window_start = s.duty_window_start ∧
      (insertStop p "FUEL" s).current_time = s.current_time + HOS_FUEL_STOP_DURATION / 60 ∧
      (insertStop p "FUEL" s).total_driving = s.total_driving) := by
  refine ⟨?_, ?_, ?_, ?_, ?_, ?_⟩
  · rw [stop_needed]
    split_ifs with h1 h2 h3 h4 <;> simp_all
  · rw [stop_needed]
    split_ifs with h1 h2 h3 h4 <;> simp_all
  · rw [stop_needed]
    split_ifs with h1 h2 h3 h4 <;> simp_all
  · simp [insertStop]
  · simp [insertStop]
  · simp [insertStop]

/-! ## Timeline construction (`generate_logbook_from_route`, phase 1)

The transformer walks the stops in order of scheduled arrival, emitting a
DRIVING segment for every gap and one mapped duty segment per stop.  Python's
`sorted` (a stable sort) is modelled by a stable insertion sort; the planner
emits stops already in chronological order, on which any stable sort is the
identity.  Every planner stop carries a scheduled arrival, so the source's
filter on `scheduled_arrival` presence is vacuous here; ISO timestamps are
modelled by the instants themselves. -/

def insertSortedBy {α : Type} (key : α → ℚ) (a : α) : List α → List α
  | [] => [a]
  | b :: l => if key a ≤ key b then a :: b :: l else b :: insertSortedBy key a l

def sortedBy {α : Type} (key : α → ℚ) : List α → List α
  | [] => []
  | a :: l => insertSortedBy key a (sortedBy key l)

theorem sortedBy_eq_self {α : Type} (key : α → ℚ) :
    ∀ l : List α, List.Chain' (fun a b => key a ≤ key b) l → sortedBy key l = l
  | [], _ => rfl
  | [a], _ => rfl
  | a :: b :: l, h => by
      rw [List.chain'_cons] at h
      have ih := sortedBy_eq_self key (b :: l) h.2
      rw [sortedBy, ih, insertSortedBy, if_pos h.1]

/-- `_map_stop_to_duty_status`. -/
def map_stop_to_duty_status (stop_type city state label : String) : String × String :=
  let location_suffix := if city = "" then "" else " - " ++ city ++ ", " ++ state
  if stop_type = "PICKUP" then
    (STATUS_ON_DUTY, "Pickup - Loading & Inspection" ++ location_suffix)
  else if stop_type = "DROPOFF" then
    (STATUS_ON_DUTY, "Dropoff - Unloading & Paperwork" ++ location_suffix)
  else if stop_type = "BREAK" then
    (STATUS_OFF_DUTY, "30-minute Break" ++ location_suffix)
  else if stop_type = "REST" then
    (STATUS_SLEEPER, "10-hour Rest Period" ++ location_suffix)
  else if stop_type = "FUEL" then
    (STATUS_ON_DUTY, "Fuel Stop" ++ location_suffix)
  else
    (STATUS_OFF_DUTY, strOr label stop_type ++ location_suffix)

/-- Remark of a gap-filling DRIVING segment. -/
def drivingRemark (stop_city stop_state : String) : String :=
  if stop_city = "" then "Driving" else "Driving to " ++ stop_city ++ ", " ++ stop_state

/-- The per-stop loop of `generate_logbook_from_route`: a DRIVING filler for
any positive gap since `last_time`, the stop's own duty segment, then the rest
with `last_time` at the stop's departure and the tracked location updated for
named cities. -/
def buildTimeline (last_time : ℚ) (current_city current_state : String) :
    List RouteStop → List LogbookSegment
  | [] => []
  | stop :: rest =>
      let driving : List LogbookSegment :=
        if last_time < stop.scheduled_arrival then
          [{ start_time := last_time, end_time := stop.scheduled_arrival,
             status := STATUS_DRIVING, city := current_city, state := current_state,
             remark := drivingRemark stop.city stop.state }]
        else []
      let sr := map_stop_to_duty_status stop.type stop.city stop.state stop.label
      let ev : LogbookSegment :=
        { start_time := stop.scheduled_arrival, end_time := stop.scheduled_departure,
          status := sr.1, city := stop.city, state := stop.state, remark := sr.2 }
      let next : String × String :=
        if stop.city ≠ "" ∧ stop.city ≠ "Unknown" then (stop.city, stop.state)
        else (current_city, current_state)
      driving ++ [ev] ++ buildTimeline stop.scheduled_departure next.1 next.2 rest

/-- The timeline phase of `generate_logbook_from_route` (lines 101–155). -/
def generate_logbook_timeline (route_stops : List RouteStop) (start_time : ℚ)
    (origin_city origin_state : String) : List LogbookSegment :=
  let current_city := strOr origin_city "Unknown"
  let current_state := strOr origin_state ""
  let sorted_stops := sortedBy (fun st => st.scheduled_arrival) route_stops
  let timeline := buildTimeline start_time current_city current_state sorted_stops
  sortedBy (fun e => e.start_time) timeline

/-! ## Validators (`core/hos/event_validators.py`)

The validators read only the start/end/status fields; the engine `DutyEvent`
and the transformer `LogbookSegment` share that shape, so they are applied to
`LogbookSegment` lists here. -/

/-- The scan of `ensure_driving_limits`, with `none` marking the raised
`HOSDrivingLimitExceeded` and `some acc` the accumulator after a passing scan.
The source also tracks an `in_duty_period` flag that is written but never
read; it is omitted. -/
def scanAcc (acc : ℚ) : List LogbookSegment → Option ℚ
  | [] => some acc
  | e :: rest =>
      if e.status = STATUS_OFF_DUTY ∨ e.status = STATUS_SLEEPER then
        if e.duration_hours ≥ MINIMUM_REST_HOURS then scanAcc 0 rest
        else scanAcc acc rest
      else
        if e.status = STATUS_DRIVING then
          let acc2 := acc + e.duration_hours
          if acc2 > MAX_DRIVING_HOURS + 1 / 50 then none else scanAcc acc2 rest
        else scanAcc acc rest

/-- `ensure_driving_limits`: sort the events by start, walk them keeping a
driving accumulator, reset it on any off-duty/sleeper event of at least
`MINIMUM_REST_HOURS`, and fail when it ever exceeds
`MAX_DRIVING_HOURS + 0.02`. -/
def ensure_driving_limits (events : List LogbookSegment) : Bool :=
  (scanAcc 0 (sortedBy (fun e => e.start_time) events)).isSome

theorem scanAcc_append (l1 l2 : List LogbookSegment) :
    ∀ acc, scanAcc acc (l1 ++ l2) = (scanAcc acc l1).bind (fun a => scanAcc a l2) := by
  induction l1 with
  | nil => intro acc; rfl
  | cons e rest ih =>
      intro acc
      rw [List.cons_append, scanAcc, scanAcc]
      by_cases h1 : e.status = STATUS_OFF_DUTY ∨ e.status = STATUS_SLEEPER
      · rw [if_pos h1, if_pos h1]
        by_cases h2 : e.duration_hours ≥ MINIMUM_REST_HOURS
        · rw [if_pos h2, if_pos h2]; exact ih 0
        · rw [if_neg h2, if_neg h2]; exact ih acc
      · rw [if_neg h1, if_neg h1]
        by_cases h3 : e.status = STATUS_DRIVING
        · rw [if_pos h3, if_pos h3]
          show (if acc + e.duration_hours > MAX_DRIVING_HOURS + 1 / 50 then none
              else scanAcc (acc + e.duration_hours) (rest ++ l2)) = _
          by_cases h4 : acc + e.duration_hours > MAX_DRIVING_HOURS + 1 / 50
          · rw [if_pos h4]
            show (none : Option ℚ) =
              ((if acc + e.duration_hours > MAX_DRIVING_HOURS + 1 / 50 then none
                else scanAcc (acc + e.duration_hours) rest).bind fun a => scanAcc a l2)
            rw [if_pos h4]
            rfl
          · rw [if_neg h4, ih (acc + e.duration_hours)]
            show ((scanAcc (acc + e.duration_hours) rest).bind fun a => scanAcc a l2) =
              ((if acc + e.duration_hours > MAX_DRIVING_HOURS + 1 / 50 then none
                else scanAcc (acc + e.duration_hours) rest).bind fun a => scanAcc a l2)
            rw [if_neg h4]
        · rw [if_neg h3, if_neg h3]; exact ih acc

/-- `validate_cycle_hours` input summary: total on-duty time (driving plus
on-duty-not-driving). -/
def total_on_duty (events : List LogbookSegment) : ℚ :=
  (events.filter (fun e => e.status = STATUS_DRIVING ∨ e.status = STATUS_ON_DUTY)).foldl
    (fun a e => a + e.duration_hours) 0

/-- The payload of the `HOSCycleExhausted` exception. -/
structure HOSCycleExhausted where
  current_hours : ℚ
  projected_hours : ℚ
deriving DecidableEq

/-- `validate_cycle_hours`: raises `HOSCycleExhausted` exactly when the
pre-trip cycle hours plus the planned on-duty total exceed `MAX_CYCLE_HOURS`. -/
def validate_cycle_hours (current_cycle_used : ℚ) (events : List LogbookSegment) :
    Except HOSCycleExhausted Unit :=
  let total := total_on_duty events
  let projected_total := current_cycle_used + total
  if projected_total > MAX_CYCLE_HOURS then
    .error { current_hours := current_cycle_used, projected_hours := total }
  else .ok ()

/-- **C1 (amended).** The 70-hour-cycle rule exists only as the standalone
validator `validate_cycle_hours`, which rejects exactly when the pre-trip
cycle hours plus the planned on-duty total (driving + on-duty segments)
exceed `MAX_CYCLE_HOURS`; in the legacy engine path it runs inside
`validate_before_persistence`, after events are generated and before LogDays
are persisted.  The route-aware stop planner itself performs no cycle
pre-check (see the counterexample theorem). -/
theorem validate_cycle_hours_spec (current : ℚ) (events : List LogbookSegment) :
    validate_cycle_hours current events =
      Except.error { current_hours := current, projected_hours := total_on_duty events } ↔
    MAX_CYCLE_HOURS < current + total_on_duty events := by
  rw [validate_cycle_hours]
  split_ifs with h
  · simp only [gt_iff_lt] at h
    exact iff_of_true rfl h
  · simp only [gt_iff_lt] at h
    constructor
    · intro hc
      cases hc
    · intro hc
      exact absurd hc h

def c4p : PlanParams :=
  { distance_miles := 220, average_speed_mph := 55, geometry := [],
    dist := fun _ _ => 0, revGeo := fun _ _ => ("", ""),
    skip_reverse_geocoding := true }

def c4s : PlanState :=
  { stops := [], segments := [], driving_since_break := 0, driving_today := 11,
    duty_window_start := 0, miles_since_fuel := 0, total_driving := 11,
    current_distance_miles := 0, current_time := 11, segment_start_time := 11,
    segment_start_miles := 0 }

theorem planStep_drive_and_forcing_witness :
    (0 : ℚ) < c4p.average_speed_mph ∧ stop_needed (stepDriven c4p c4s) = some "REST" := by
  have h := planStep_drive_and_forcing c4p c4s (by norm_num [c4p]) (by norm_num [c4p])
  exact ⟨by norm_num [c4p],
    h.2.2.2.1 (by norm_num [c4s, hours_until_daily_limit, HOS_MAX_DRIVING_DAILY])⟩

/-! ## Structural lemmas for the planner-to-validator argument (claim C3) -/

/-- `last_time` after the timeline builder has consumed a stop list. -/
def tlLast (t : ℚ) : List RouteStop → ℚ
  | [] => t
  | stop :: rest => tlLast stop.scheduled_departure rest

/-- The tracked (city, state) after the builder has consumed a stop list. -/
def tlCity (c st : String) : List RouteStop → String × String
  | [] => (c, st)
  | stop :: rest =>
      if stop.city ≠ "" ∧ stop.city ≠ "Unknown" then tlCity stop.city stop.state rest
      else tlCity c st rest

theorem tlLast_append (l2 : List RouteStop) :
    ∀ (l1 : List RouteStop) (t : ℚ), tlLast t (l1 ++ l2) = tlLast (tlLast t l1) l2
  | [], t => rfl
  | stop :: l1, t => by
      rw [List.cons_append]
      show tlLast stop.scheduled_departure (l1 ++ l2) =
        tlLast (tlLast stop.scheduled_departure l1) l2
      exact tlLast_append l2 l1 stop.scheduled_departure

theorem buildTimeline_append (l2 : List RouteStop) :
    ∀ (l1 : List RouteStop) (t : ℚ) (c st : String),
      buildTimeline t c st (l1 ++ l2) =
        buildTimeline t c st l1 ++
          buildTimeline (tlLast t l1) (tlCity c st l1).1 (tlCity c st l1).2 l2
  | [], t, c, st => by simp [buildTimeline, tlLast, tlCity]
  | stop :: l1, t, c, st => by
      rw [List.cons_append, buildTimeline, buildTimeline]
      by_cases hc : stop.city ≠ "" ∧ stop.city ≠ "Unknown"
      · simp only [if_pos hc, tlLast, tlCity,
          buildTimeline_append l2 l1 stop.scheduled_departure stop.city stop.state,
          List.append_assoc]
      · simp only [if_neg hc, tlLast, tlCity,
          buildTimeline_append l2 l1 stop.scheduled_departure c st,
          List.append_assoc]

/-- On a chain of stops whose arrivals dominate `t`, every arrival dominates
`t`. -/
theorem stops_all_ge :
    ∀ (l : List RouteStop) (t : ℚ),
      List.Chain' (fun a b => a.scheduled_departure ≤ b.scheduled_arrival) l →
      (∀ x ∈ l, x.scheduled_arrival ≤ x.scheduled_departure) →
      (∀ x, l.head? = some x → t ≤ x.scheduled_arrival) →
      ∀ x ∈ l, t ≤ x.scheduled_arrival
  | [], _, _, _, _ => by intro x hx; exact absurd hx (List.not_mem_nil x)
  | stop :: l, t, hch, hdur, hhd => by
      intro x hx
      have hstop : t ≤ stop.scheduled_arrival := hhd stop rfl
      rcases List.mem_cons.mp hx with hx | hx
      · subst hx; exact hstop
      · rw [List.chain'_cons'] at hch
        have hrest := stops_all_ge l stop.scheduled_departure hch.2 (fun y hy => hdur y (List.mem_cons_of_mem _ hy))
          (fun y hy => hch.1 y hy)
        have hsd : t ≤ stop.scheduled_departure :=
          le_trans hstop (hdur stop (List.mem_cons_self _ _))
        exact le_trans hsd (hrest x hx)

theorem tlLast_ge :
    ∀ (l : List RouteStop) (t : ℚ),
      List.Chain' (fun a b => a.scheduled_departure ≤ b.scheduled_arrival) l →
      (∀ x ∈ l, x.scheduled_arrival ≤ x.scheduled_departure) →
      (∀ x ∈ l, t ≤ x.scheduled_arrival) → t ≤ tlLast t l
  | [], t, _, _, _ => le_refl t
  | stop :: l, t, hch, hd, ha => by
      rw [tlLast]
      rw [List.chain'_cons'] at hch
      have harr : ∀ y ∈ l, stop.scheduled_departure ≤ y.scheduled_arrival :=
        stops_all_ge l stop.scheduled_departure hch.2
          (fun y hy => hd y (List.mem_cons_of_mem _ hy)) (fun y hy => hch.1 y hy)
      have hrec := tlLast_ge l stop.scheduled_departure hch.2
        (fun y hy => hd y (List.mem_cons_of_mem _ hy)) harr
      have h1 : t ≤ stop.scheduled_departure :=
        le_trans (ha stop (List.mem_cons_self _ _)) (hd stop (List.mem_cons_self _ _))
      exact le_trans h1 hrec

theorem tlLast_eq (t0 : ℚ) :
    ∀ l : List RouteStop,
      tlLast t0 l = ((l.getLast?).map (fun x => x.scheduled_departure)).getD t0
  | [] => rfl
  | [a] => rfl
  | a :: b :: l => by
      rw [tlLast, tlLast_eq a.scheduled_departure (b :: l)]
      rcases hgl : (b :: l).getLast? with _ | y
      · exact absurd hgl (by simp)
      · simp [List.getLast?_cons_cons, hgl]

theorem stops_arrival_chain :
    ∀ l : List RouteStop,
      List.Chain' (fun a b => a.scheduled_departure ≤ b.scheduled_arrival) l →
      (∀ x ∈ l, x.scheduled_arrival ≤ x.scheduled_departure) →
      List.Chain' (fun a b => a.scheduled_arrival ≤ b.scheduled_arrival) l
  | [], _, _ => List.chain'_nil
  | a :: l, hch, hd => by
      rw [List.chain'_cons'] at hch ⊢
      refine ⟨?_, stops_arrival_chain l hch.2 (fun y hy => hd y (List.mem_cons_of_mem _ hy))⟩
      intro y hy
      exact le_trans (hd a (List.mem_cons_self _ _)) (hch.1 y hy)

/-- The timeline built from a well-formed stop chain is ordered by start
time, and every event starts at or after the builder clock. -/
theorem buildTimeline_chain :
    ∀ (stops : List RouteStop) (t : ℚ) (c st : String),
      List.Chain' (fun a b => a.scheduled_departure ≤ b.scheduled_arrival) stops →
      (∀ x ∈ stops, x.scheduled_arrival ≤ x.scheduled_departure) →
      (∀ x ∈ stops, t ≤ x.scheduled_arrival) →
      List.Chain' (fun a b => a.start_time ≤ b.start_time) (buildTimeline t c st stops) ∧
      ∀ e ∈ buildTimeline t c st stops, t ≤ e.start_time
  | [], t, c, st, _, _, _ =>
      ⟨List.chain'_nil, fun e he => absurd he (List.not_mem_nil e)⟩
  | stop :: rest, t, c, st, hch, hd, ha => by
      rw [List.chain'_cons'] at hch
      have hastop : t ≤ stop.scheduled_arrival := ha stop (List.mem_cons_self _ _)
      have hdstop : stop.scheduled_arrival ≤ stop.scheduled_departure :=
        hd stop (List.mem_cons_self _ _)
      have harr : ∀ y ∈ rest, stop.scheduled_departure ≤ y.scheduled_arrival :=
        stops_all_ge rest stop.scheduled_departure hch.2
          (fun y hy => hd y (List.mem_cons_of_mem _ hy)) (fun y hy => hch.1 y hy)
      rw [buildTimeline]
      rcases hnx : (if stop.city ≠ "" ∧ stop.city ≠ "Unknown" then (stop.city, stop.state)
        else (c, st)) with ⟨nc, ns⟩
      have ih := buildTimeline_chain rest stop.scheduled_departure nc ns hch.2
        (fun y hy => hd y (List.mem_cons_of_mem _ hy)) harr
      simp only [hnx]
      by_cases hflt : t < stop.scheduled_arrival
      · rw [if_pos hflt]
        simp only [List.cons_append, List.nil_append, List.singleton_append]
        constructor
        · rw [List.chain'_cons, List.chain'_cons']
          exact ⟨hflt.le,
            fun y hy => le_trans hdstop (ih.2 y (List.mem_of_mem_head? hy)), ih.1⟩
        · intro e he
          simp only [List.mem_cons] at he
          rcases he with he | he | he
          · subst he; exact le_refl t
          · subst he; exact hastop
          · exact le_trans (le_trans hastop hdstop) (ih.2 e he)
      · rw [if_neg hflt]
        simp only [List.cons_append, List.nil_append, List.singleton_append]
        constructor
        · rw [List.chain'_cons']
          exact ⟨fun y hy => le_trans hdstop (ih.2 y (List.mem_of_mem_head? hy)), ih.1⟩
        · intro e he
          simp only [List.mem_cons] at he
          rcases he with he | he
          · subst he; exact hastop
          · exact le_trans (le_trans hastop hdstop) (ih.2 e he)

theorem map_status_PICKUP (c st l : String) :
    (map_stop_to_duty_status "PICKUP" c st l).1 = STATUS_ON_DUTY := by
  simp [map_stop_to_duty_status]

theorem map_status_DROPOFF (c st l : String) :
    (map_stop_to_duty_status "DROPOFF" c st l).1 = STATUS_ON_DUTY := by
  simp [map_stop_to_duty_status]

theorem map_status_BREAK (c st l : String) :
    (map_stop_to_duty_status "BREAK" c st l).1 = STATUS_OFF_DUTY := by
  simp [map_stop_to_duty_status]

theorem map_status_REST (c st l : String) :
    (map_stop_to_duty_status "REST" c st l).1 = STATUS_SLEEPER := by
  simp [map_stop_to_duty_status]

theorem map_status_FUEL (c st l : String) :
    (map_stop_to_duty_status "FUEL" c st l).1 = STATUS_ON_DUTY := by
  simp [map_stop_to_duty_status]

theorem stop_needed_none_lt (s : PlanState) (h : stop_needed s = none) :
    s.driving_today < HOS_MAX_DRIVING_DAILY - 1 / 100 := by
  rw [stop_needed] at h
  split_ifs at h with h1 h2 h3 h4
  exact not_le.mp h1

theorem stop_needed_kinds (s : PlanState) (k : String) (h : stop_needed s = some k) :
    k = "REST" ∨ k = "BREAK" ∨ k = "FUEL" := by
  rw [stop_needed] at h
  split_ifs at h with h1 h2 h3 h4 <;> injection h with h <;> subst h <;> tauto

theorem stop_needed_not_rest (s : PlanState) (k : String) (h : stop_needed s = some k)
    (hk : k ≠ "REST") : s.driving_today < HOS_MAX_DRIVING_DAILY - 1 / 100 := by
  rw [stop_needed] at h
  split_ifs at h with h1 h2 h3 h4 <;> injection h with h
  · exact absurd h.symm hk
  · exact absurd h.symm hk
  · exact not_le.mp h1
  · exact not_le.mp h1

theorem hosMin_le_daily (r hb hd hw hf : ℚ) (h : 1 / 100 < hd) :
    hosMin r hb hd hw hf ≤ hd := by
  rw [hosMin]
  split_ifs with h1 h2 h3 h4 <;> simp_all [min_le_iff, le_refl]

/-- Duration, in hours, of an inserted REST/BREAK/FUEL stop. -/
def stopDur (kind : String) : ℚ := if kind = "REST" then 10 else 1 / 2

theorem insertStop_eval (p : PlanParams) (s : PlanState) (kind : String)
    (hk : kind = "REST" ∨ kind = "BREAK" ∨ kind = "FUEL") :
    ∃ stop : RouteStop,
      (insertStop p kind s).stops = s.stops ++ [stop] ∧
      stop.type = kind ∧
      stop.scheduled_arrival = s.current_time ∧
      stop.scheduled_departure = s.current_time + stopDur kind ∧
      (insertStop p kind s).current_time = s.current_time + stopDur kind ∧
      (insertStop p kind s).current_distance_miles = s.current_distance_miles ∧
      (insertStop p kind s).driving_today =
        (if kind = "REST" then 0 else s.driving_today) ∧
      (insertStop p kind s).total_driving = s.total_driving := by
  rcases hk with hk | hk | hk <;> subst hk
  · let stopX : RouteStop :=
      { type := "REST", lat := (stopLocation p s).1, lng := (stopLocation p s).2,
        label := "10-hour Rest Period", duration_minutes := HOS_REST_DURATION,
        distance_from_start_miles := round1 s.current_distance_miles,
        driving_hours_from_start := round2 s.total_driving,
        scheduled_arrival := s.current_time,
        scheduled_departure := s.current_time + HOS_REST_DURATION / 60,
        city := (stopCityState p (stopLocation p s).1 (stopLocation p s).2).1,
        state := (stopCityState p (stopLocation p s).1 (stopLocation p s).2).2 }
    refine ⟨stopX, ?_, rfl, rfl, ?_, ?_, ?_, ?_, ?_⟩ <;>
      simp [insertStop, stopDur, stopX, HOS_REST_DURATION] <;> norm_num
  · let stopX : RouteStop :=
      { type := "BREAK", lat := (stopLocation p s).1, lng := (stopLocation p s).2,
        label := "30-minute Break", duration_minutes := HOS_BREAK_DURATION,
        distance_from_start_miles := round1 s.current_distance_miles,
        driving_hours_from_start := round2 s.total_driving,
        scheduled_arrival := s.current_time,
        scheduled_departure := s.current_time + HOS_BREAK_DURATION / 60,
        city := (stopCityState p (stopLocation p s).1 (stopLocation p s).2).1,
        state := (stopCityState p (stopLocation p s).1 (stopLocation p s).2).2 }
    refine ⟨stopX, ?_, rfl, rfl, ?_, ?_, ?_, ?_, ?_⟩ <;>
      simp [insertStop, stopDur, stopX, HOS_BREAK_DURATION] <;> norm_num
  · let stopX : RouteStop :=
      { type := "FUEL", lat := (stopLocation p s).1, lng := (stopLocation p s).2,
        label := "Fuel Stop", duration_minutes := HOS_FUEL_STOP_DURATION,
        distance_from_start_miles := round1 s.current_distance_miles,
        driving_hours_from_start := round2 s.total_driving,
        scheduled_arrival := s.current_time,
        scheduled_departure := s.current_time + HOS_FUEL_STOP_DURATION / 60,
        city := (stopCityState p (stopLocation p s).1 (stopLocation p s).2).1,
        state := (stopCityState p (stopLocation p s).1 (stopLocation p s).2).2 }
    refine ⟨stopX, ?_, rfl, rfl, ?_, ?_, ?_, ?_, ?_⟩ <;>
      simp [insertStop, stopDur, stopX, HOS_FUEL_STOP_DURATION] <;> norm_num

theorem planFinalSegment_fields (d : ℚ) (s : PlanState) :
    (planFinalSegment d s).stops = s.stops ∧
    (planFinalSegment d s).current_time = s.current_time ∧
    (planFinalSegment d s).driving_today = s.driving_today ∧
    (planFinalSegment d s).current_distance_miles = s.current_distance_miles := by
  rw [planFinalSegment]
  split_ifs <;> exact ⟨rfl, rfl, rfl, rfl⟩

theorem planDropoff_eval (g : List (ℚ × ℚ)) (d : ℚ) (dc ds : String) (s : PlanState) :
    ∃ stop : RouteStop,
      (planDropoff g d true dc ds s).stops = s.stops ++ [stop] ∧
      stop.type = "DROPOFF" ∧
      stop.scheduled_arrival = s.current_time ∧
      stop.scheduled_departure = s.current_time + 1 ∧
      (planDropoff g d true dc ds s).current_time = s.current_time + 1 ∧
      (planDropoff g d true dc ds s).driving_today = s.driving_today ∧
      (planDropoff g d true dc ds s).current_distance_miles =
        s.current_distance_miles := by
  let stopX : RouteStop :=
    { type := "DROPOFF",
      lat := ((g.getLast?).map Prod.snd).getD 0,
      lng := ((g.getLast?).map Prod.fst).getD 0,
      label := "Dropoff - Unloading & Paperwork",
      duration_minutes := HOS_DROPOFF_DURATION,
      distance_from_start_miles := round1 d,
      driving_hours_from_start := round2 s.total_driving,
      scheduled_arrival := s.current_time,
      scheduled_departure := s.current_time + HOS_DROPOFF_DURATION / 60,
      city := dc, state := ds }
  refine ⟨stopX, ?_, rfl, rfl, ?_, ?_, ?_, ?_⟩ <;>
    simp [planDropoff, stopX, HOS_DROPOFF_DURATION] <;> norm_num

theorem scanAcc_driving_cons (A d : ℚ) (e : LogbookSegment) (l : List LogbookSegment)
    (hst : e.status = STATUS_DRIVING) (hdur : e.duration_hours = d)
    (hb : ¬ A + d > MAX_DRIVING_HOURS + 1 / 50) :
    scanAcc A (e :: l) = scanAcc (A + d) l := by
  subst hdur
  rw [scanAcc,
    if_neg (by rw [hst]; simp [STATUS_DRIVING, STATUS_OFF_DUTY, STATUS_SLEEPER]),
    if_pos hst]
  show (if A + e.duration_hours > MAX_DRIVING_HOURS + 1 / 50 then none
    else scanAcc (A + e.duration_hours) l) = scanAcc (A + e.duration_hours) l
  rw [if_neg hb]

theorem scanAcc_offsleeper_cons (A d : ℚ) (e : LogbookSegment) (l : List LogbookSegment)
    (hst : e.status = STATUS_OFF_DUTY ∨ e.status = STATUS_SLEEPER)
    (hdur : e.duration_hours = d) :
    scanAcc A (e :: l) =
      if d ≥ MINIMUM_REST_HOURS then scanAcc 0 l else scanAcc A l := by
  subst hdur
  rw [scanAcc, if_pos hst]

theorem scanAcc_other_cons (A : ℚ) (e : LogbookSegment) (l : List LogbookSegment)
    (h1 : ¬ (e.status = STATUS_OFF_DUTY ∨ e.status = STATUS_SLEEPER))
    (h2 : ¬ e.status = STATUS_DRIVING) :
    scanAcc A (e :: l) = scanAcc A l := by
  rw [scanAcc, if_neg h1, if_neg h2]

theorem buildTimeline_single (L : ℚ) (c st : String) (stop : RouteStop) :
    buildTimeline L c st [stop] =
      (if L < stop.scheduled_arrival then
          [{ start_time := L, end_time := stop.scheduled_arrival,
              status := STATUS_DRIVING, city := c, state := st,
              remark := drivingRemark stop.city stop.state }]
        else []) ++
      [{ start_time := stop.scheduled_arrival, end_time := stop.scheduled_departure,
          status := (map_stop_to_duty_status stop.type stop.city stop.state stop.label).1,
          city := stop.city, state := stop.state,
          remark := (map_stop_to_duty_status stop.type stop.city stop.state stop.label).2 }] := by
  rw [buildTimeline, buildTimeline]
  simp

theorem scanAcc_single_stop (L : ℚ) (c st : String) (stop : RouteStop) (A : ℚ)
    (hL : L ≤ stop.scheduled_arrival)
    (hbound : A + (stop.scheduled_arrival - L) ≤ MAX_DRIVING_HOURS + 1 / 50) :
    ((map_stop_to_duty_status stop.type stop.city stop.state stop.label).1 =
        STATUS_SLEEPER →
      MINIMUM_REST_HOURS ≤ stop.scheduled_departure - stop.scheduled_arrival →
      scanAcc A (buildTimeline L c st [stop]) = some 0) ∧
    ((map_stop_to_duty_status stop.type stop.city stop.state stop.label).1 =
        STATUS_OFF_DUTY →
      stop.scheduled_departure - stop.scheduled_arrival < MINIMUM_REST_HOURS →
      scanAcc A (buildTimeline L c st [stop]) =
        some (A + (stop.scheduled_arrival - L))) ∧
    ((map_stop_to_duty_status stop.type stop.city stop.state stop.label).1 =
        STATUS_ON_DUTY →
      scanAcc A (buildTimeline L c st [stop]) =
        some (A + (stop.scheduled_arrival - L))) := by
  have hnotgt : ¬ A + (stop.scheduled_arrival - L) > MAX_DRIVING_HOURS + 1 / 50 :=
    not_lt.mpr hbound
  rw [buildTimeline_single]
  refine ⟨?_, ?_, ?_⟩
  · intro hst h10
    by_cases hflt : L < stop.scheduled_arrival
    · rw [if_pos hflt, List.singleton_append,
        scanAcc_driving_cons A (stop.scheduled_arrival - L) _ _ (by rfl) (by rfl) hnotgt,
        scanAcc_offsleeper_cons _ (stop.scheduled_departure - stop.scheduled_arrival) _ _
          (Or.inr hst) (by rfl), if_pos h10]
      rfl
    · rw [if_neg hflt, List.nil_append,
        scanAcc_offsleeper_cons _ (stop.scheduled_departure - stop.scheduled_arrival) _ _
          (Or.inr hst) (by rfl), if_pos h10]
      rfl
  · intro hst hlt10
    by_cases hflt : L < stop.scheduled_arrival
    · rw [if_pos hflt, List.singleton_append,
        scanAcc_driving_cons A (stop.scheduled_arrival - L) _ _ (by rfl) (by rfl) hnotgt,
        scanAcc_offsleeper_cons _ (stop.scheduled_departure - stop.scheduled_arrival) _ _
          (Or.inl hst) (by rfl), if_neg (not_le.mpr hlt10)]
      rfl
    · have harrL : stop.scheduled_arrival - L = 0 := by
        linarith [not_lt.mp hflt]
      rw [if_neg hflt, List.nil_append,
        scanAcc_offsleeper_cons _ (stop.scheduled_departure - stop.scheduled_arrival) _ _
          (Or.inl hst) (by rfl), if_neg (not_le.mpr hlt10), harrL, add_zero]
      rfl
  · intro hst
    have h1 : ¬ ((map_stop_to_duty_status stop.type stop.city stop.state stop.label).1 =
        STATUS_OFF_DUTY ∨
        (map_stop_to_duty_status stop.type stop.city stop.state stop.label).1 =
          STATUS_SLEEPER) := by
      rw [hst]
      simp [STATUS_ON_DUTY, STATUS_OFF_DUTY, STATUS_SLEEPER]
    have h2 : ¬ (map_stop_to_duty_status stop.type stop.city stop.state stop.label).1 =
        STATUS_DRIVING := by
      rw [hst]
      simp [STATUS_ON_DUTY, STATUS_DRIVING]
    by_cases hflt : L < stop.scheduled_arrival
    · rw [if_pos hflt, List.singleton_append,
        scanAcc_driving_cons A (stop.scheduled_arrival - L) _ _ (by rfl) (by rfl) hnotgt,
        scanAcc_other_cons _ _ _ h1 h2]
      rfl
    · have harrL : stop.scheduled_arrival - L = 0 := by
        linarith [not_lt.mp hflt]
      rw [if_neg hflt, List.nil_append, scanAcc_other_cons _ _ _ h1 h2, harrL, add_zero]
      rfl

/-- The loop invariant for claim C3: the emitted stops are chronologically
chained from `t0`, the clock does not lag behind the last departure, the
daily-driving counter is bounded by 11 h (strictly below the trigger level
while the destination is ahead), and the validator scan of the timeline built
from the emitted stops succeeds with accumulator equal to the driving time
not yet followed by a stop. -/
def LoopInv (p : PlanParams) (t0 : ℚ) (c st : String) (s : PlanState) : Prop :=
  List.Chain' (fun a b => a.scheduled_departure ≤ b.scheduled_arrival) s.stops ∧
  (∀ x ∈ s.stops, x.scheduled_arrival ≤ x.scheduled_departure) ∧
  (∀ x ∈ s.stops, t0 ≤ x.scheduled_arrival) ∧
  tlLast t0 s.stops ≤ s.current_time ∧
  s.driving_today ≤ HOS_MAX_DRIVING_DAILY ∧
  (s.current_distance_miles < p.distance_miles →
    s.driving_today < HOS_MAX_DRIVING_DAILY - 1 / 100) ∧
  scanAcc 0 (buildTimeline t0 c st s.stops) =
    some (s.driving_today - (s.current_time - tlLast t0 s.stops))

/-- An invariant state yields a timeline that passes the driving-limit scan. -/
theorem inv_timeline_pass (p : PlanParams) (t0 : ℚ) (oc os : String) (s : PlanState)
    (hinv : LoopInv p t0 (strOr oc "Unknown") (strOr os "") s) :
    ensure_driving_limits (generate_logbook_timeline s.stops t0 oc os) = true := by
  obtain ⟨i1, i2, i3, i4, i5, i6, i7⟩ := hinv
  have hsorted1 : sortedBy (fun x => x.scheduled_arrival) s.stops = s.stops :=
    sortedBy_eq_self _ _ (stops_arrival_chain s.stops i1 i2)
  have hch := buildTimeline_chain s.stops t0 (strOr oc "Unknown") (strOr os "") i1 i2 i3
  rw [generate_logbook_timeline, ensure_driving_limits]
  simp only [hsorted1, sortedBy_eq_self _ _ hch.1, i7]
  rfl

theorem planStep_eq (p : PlanParams) (s : PlanState) :
    planStep p s =
      match stop_needed (stepDriven p s) with
      | some kind =>
          if (stepDriven p s).current_distance_miles < p.distance_miles then
            insertStop p kind (stepDriven p s)
          else stepDriven p s
      | none => stepDriven p s := rfl

theorem tlLast_single (z : ℚ) (stop : RouteStop) :
    tlLast z [stop] = stop.scheduled_departure := rfl

theorem planStep_preserves (p : PlanParams) (t0 : ℚ) (c st : String)
    (s : PlanState) (hinv : LoopInv p t0 c st s)
    (hguard : s.current_distance_miles < p.distance_miles) :
    LoopInv p t0 c st (planStep p s) := by
  obtain ⟨i1, i2, i3, i4, i5, i6, i7⟩ := hinv
  obtain ⟨f1, f2, f3, f4, f5, f6, f7, f8, f9, f10, f11⟩ := stepDriven_fields p s
  have hadv0 : 0 ≤ driveAdvance p s := driveAdvance_nonneg p s
  have hdtlt : s.driving_today < HOS_MAX_DRIVING_DAILY - 1 / 100 := i6 hguard
  have hadv_le : driveAdvance p s ≤ HOS_MAX_DRIVING_DAILY - s.driving_today := by
    rw [driveAdvance]
    split_ifs with h
    · linarith
    · have hle : drive_hours p s ≤ hours_until_daily_limit s :=
        hosMin_le_daily _ _ _ _ _ (by rw [hours_until_daily_limit]; linarith)
      rw [hours_until_daily_limit] at hle
      linarith
  set s1 := stepDriven p s with hs1
  have hdt1 : s1.driving_today ≤ HOS_MAX_DRIVING_DAILY := by rw [f2]; linarith
  have hlast1 : tlLast t0 s1.stops = tlLast t0 s.stops := by rw [f8]
  have htime1 : tlLast t0 s1.stops ≤ s1.current_time := by
    rw [hlast1, f6]; linarith
  have ht0last : t0 ≤ tlLast t0 s.stops := tlLast_ge s.stops t0 i1 i2 i3
  have hscan1 : scanAcc 0 (buildTimeline t0 c st s1.stops) =
      some (s1.driving_today - (s1.current_time - tlLast t0 s1.stops)) := by
    rw [f8, i7]
    congr 1
    rw [f2, f6]
    ring
  rw [planStep_eq, ← hs1]
  rcases hstop : stop_needed s1 with _ | kind
  · show LoopInv p t0 c st s1
    refine ⟨?_, ?_, ?_, htime1, hdt1, fun _ => stop_needed_none_lt s1 hstop, hscan1⟩
    · rw [f8]; exact i1
    · rw [f8]; exact i2
    · rw [f8]; exact i3
  · show LoopInv p t0 c st
      (if s1.current_distance_miles < p.distance_miles then insertStop p kind s1 else s1)
    by_cases hlt : s1.current_distance_miles < p.distance_miles
    · rw [if_pos hlt]
      have hkind := stop_needed_kinds s1 kind hstop
      obtain ⟨stop, hstops, htype, harr, hdep, htime, hdist, hdt, htd⟩ :=
        insertStop_eval p s1 kind hkind
      have hdurpos : 0 < stopDur kind := by
        rw [stopDur]; split_ifs <;> norm_num
      have hstops' : (insertStop p kind s1).stops = s.stops ++ [stop] := by
        rw [hstops, f8]
      have hBR : ¬ ("BREAK" : String) = "REST" := by simp
      have hFR : ¬ ("FUEL" : String) = "REST" := by simp
      refine ⟨?_, ?_, ?_, ?_, ?_, ?_, ?_⟩
      · rw [hstops', List.chain'_append]
        refine ⟨i1, List.chain'_singleton _, ?_⟩
        intro x hx y hy
        simp only [List.head?_cons, Option.mem_def, Option.some.injEq] at hy
        subst hy
        rw [Option.mem_def] at hx
        have hx' : tlLast t0 s.stops = x.scheduled_departure := by
          rw [tlLast_eq, hx]
          rfl
        rw [harr, ← hx']
        rw [← hlast1]
        exact htime1
      · rw [hstops']
        intro x hx
        rcases List.mem_append.mp hx with hx | hx
        · exact i2 x hx
        · simp only [List.mem_singleton] at hx
          subst hx
          rw [harr, hdep]
          linarith
      · rw [hstops']
        intro x hx
        rcases List.mem_append.mp hx with hx | hx
        · exact i3 x hx
        · simp only [List.mem_singleton] at hx
          subst hx
          rw [harr]
          calc t0 ≤ tlLast t0 s.stops := ht0last
            _ = tlLast t0 s1.stops := hlast1.symm
            _ ≤ s1.current_time := htime1
      · rw [hstops', tlLast_append, tlLast_single, hdep, htime]
      · rw [hdt]
        split_ifs
        · norm_num [HOS_MAX_DRIVING_DAILY]
        · exact hdt1
      · intro hdistlt
        rw [hdt]
        split_ifs with hkr
        · norm_num [HOS_MAX_DRIVING_DAILY]
        · exact stop_needed_not_rest s1 kind hstop hkr
      · rw [hstops', buildTimeline_append, scanAcc_append, i7, Option.some_bind]
        have hL : tlLast t0 s.stops ≤ stop.scheduled_arrival := by
          rw [harr, ← hlast1]
          exact htime1
        have hbound : s.driving_today - (s.current_time - tlLast t0 s.stops) +
            (stop.scheduled_arrival - tlLast t0 s.stops) ≤ MAX_DRIVING_HOURS + 1 / 50 := by
          rw [harr, f6]
          rw [MAX_DRIVING_HOURS]
          rw [HOS_MAX_DRIVING_DAILY] at hadv_le
          linarith
        have hsingle := scanAcc_single_stop (tlLast t0 s.stops)
          (tlCity c st s.stops).1 (tlCity c st s.stops).2 stop
          (s.driving_today - (s.current_time - tlLast t0 s.stops)) hL hbound
        rcases hkind with hkr | hkb | hkf
        · subst hkr
          rw [hsingle.1 (by rw [htype]; exact map_status_REST _ _ _)
            (by rw [hdep, harr, stopDur]
                simp only [if_pos rfl]
                norm_num [MINIMUM_REST_HOURS])]
          rw [tlLast_append, tlLast_single, hdt, htime, hdep, if_pos rfl]
          congr 1
          ring
        · subst hkb
          rw [hsingle.2.1 (by rw [htype]; exact map_status_BREAK _ _ _)
            (by rw [hdep, harr, stopDur]
                simp only [if_neg hBR]
                norm_num [MINIMUM_REST_HOURS])]
          rw [tlLast_append, tlLast_single, hdt, htime, hdep, harr, if_neg hBR]
          congr 1
          rw [f2, f6]
          ring
        · subst hkf
          rw [hsingle.2.2 (by rw [htype]; exact map_status_FUEL _ _ _)]
          rw [tlLast_append, tlLast_single, hdt, htime, hdep, harr, if_neg hFR]
          congr 1
          rw [f2, f6]
          ring
    · rw [if_neg hlt]
      refine ⟨?_, ?_, ?_, htime1, hdt1, fun h => absurd h hlt, hscan1⟩
      · rw [f8]; exact i1
      · rw [f8]; exact i2
      · rw [f8]; exact i3

theorem planLoop_inv (p : PlanParams) (t0 : ℚ) (c st : String) :
    ∀ (fuel : ℕ) (s : PlanState), LoopInv p t0 c st s →
      LoopInv p t0 c st (planLoop p fuel s)
  | 0, _, hinv => hinv
  | n + 1, s, hinv => by
      rw [planLoop]
      by_cases h : s.current_distance_miles < p.distance_miles
      · rw [if_pos h]
        exact planLoop_inv p t0 c st n (planStep p s) (planStep_preserves p t0 c st s hinv h)
      · rw [if_neg h]
        exact hinv

theorem planInit_eval_false (g : List (ℚ × ℚ)) (t0 : ℚ) (oc os : String) :
    (planInit g t0 false oc os).stops = [] ∧
    (planInit g t0 false oc os).current_time = t0 ∧
    (planInit g t0 false oc os).driving_today = 0 ∧
    (planInit g t0 false oc os).current_distance_miles = 0 :=
  ⟨rfl, rfl, rfl, rfl⟩

theorem planInit_eval_true (g : List (ℚ × ℚ)) (t0 : ℚ) (oc os : String) :
    ∃ stop : RouteStop,
      (planInit g t0 true oc os).stops = [stop] ∧
      stop.type = "PICKUP" ∧
      stop.scheduled_arrival = t0 ∧
      stop.scheduled_departure = t0 + 1 ∧
      (planInit g t0 true oc os).current_time = t0 + 1 ∧
      (planInit g t0 true oc os).driving_today = 0 ∧
      (planInit g t0 true oc os).current_distance_miles = 0 := by
  let stopX : RouteStop :=
    { type := "PICKUP",
      lat := ((g.head?).map Prod.snd).getD 0,
      lng := ((g.head?).map Prod.fst).getD 0,
      label := "Pickup - Loading & Inspection",
      duration_minutes := HOS_PICKUP_DURATION,
      distance_from_start_miles := 0, driving_hours_from_start := 0,
      scheduled_arrival := t0,
      scheduled_departure := t0 + 1,
      city := oc, state := os }
  refine ⟨stopX, ?_, rfl, rfl, rfl, ?_, ?_, ?_⟩ <;>
    simp [planInit, stopX, HOS_PICKUP_DURATION] <;> norm_num

theorem planInit_inv (p : PlanParams) (g : List (ℚ × ℚ)) (t0 : ℚ) (ip : Bool)
    (oc os c st : String) :
    LoopInv p t0 c st (planInit g t0 ip oc os) := by
  cases ip with
  | false =>
    obtain ⟨h1, h2, h3, h4⟩ := planInit_eval_false g t0 oc os
    refine ⟨?_, ?_, ?_, ?_, ?_, ?_, ?_⟩
    · rw [h1]; exact List.chain'_nil
    · rw [h1]; intro x hx; simp at hx
    · rw [h1]; intro x hx; simp at hx
    · rw [h1, h2]; exact le_refl t0
    · rw [h3]; norm_num [HOS_MAX_DRIVING_DAILY]
    · intro _; rw [h3]; norm_num [HOS_MAX_DRIVING_DAILY]
    · rw [h1, h2, h3]
      show (some 0 : Option ℚ) = some (0 - (t0 - t0))
      norm_num
  | true =>
    obtain ⟨stop, h1, htype, harr, hdep, hct, hdt, hcdm⟩ := planInit_eval_true g t0 oc os
    refine ⟨?_, ?_, ?_, ?_, ?_, ?_, ?_⟩
    · rw [h1]; exact List.chain'_singleton _
    · rw [h1]; intro x hx; simp only [List.mem_singleton] at hx; subst hx
      rw [harr, hdep]; linarith
    · rw [h1]; intro x hx; simp only [List.mem_singleton] at hx; subst hx
      rw [harr]
    · rw [h1, hct, tlLast_single, hdep]
    · rw [hdt]; norm_num [HOS_MAX_DRIVING_DAILY]
    · intro _; rw [hdt]; norm_num [HOS_MAX_DRIVING_DAILY]
    · rw [h1, hct, hdt]
      have hsingle := scanAcc_single_stop t0 c st stop 0 (le_of_eq harr.symm)
        (by rw [harr]; norm_num [MAX_DRIVING_HOURS])
      rw [hsingle.2.2 (by rw [htype]; exact map_status_PICKUP _ _ _)]
      rw [tlLast_single, hdep, harr]
      congr 1
      ring

theorem planFinalSegment_inv (p : PlanParams) (t0 : ℚ) (c st : String) (d : ℚ)
    (s : PlanState) (hinv : LoopInv p t0 c st s) :
    LoopInv p t0 c st (planFinalSegment d s) := by
  obtain ⟨g1, g2, g3, g4⟩ := planFinalSegment_fields d s
  obtain ⟨i1, i2, i3, i4, i5, i6, i7⟩ := hinv
  refine ⟨?_, ?_, ?_, ?_, ?_, ?_, ?_⟩
  · rw [g1]; exact i1
  · rw [g1]; exact i2
  · rw [g1]; exact i3
  · rw [g1, g2]; exact i4
  · rw [g3]; exact i5
  · rw [g4, g3]; exact i6
  · rw [g1, g2, g3]; exact i7

theorem planDropoff_inv (p : PlanParams) (g : List (ℚ × ℚ)) (d : ℚ) (idb : Bool)
    (dc ds : String) (t0 : ℚ) (c st : String) (s : PlanState)
    (hinv : LoopInv p t0 c st s) :
    LoopInv p t0 c st (planDropoff g d idb dc ds s) := by
  cases idb with
  | false => exact hinv
  | true =>
    obtain ⟨i1, i2, i3, i4, i5, i6, i7⟩ := hinv
    obtain ⟨stop, hstops, htype, harr, hdep, hct, hdt, hcdm⟩ := planDropoff_eval g d dc ds s
    have ht0last : t0 ≤ tlLast t0 s.stops := tlLast_ge s.stops t0 i1 i2 i3
    refine ⟨?_, ?_, ?_, ?_, ?_, ?_, ?_⟩
    · rw [hstops, List.chain'_append]
      refine ⟨i1, List.chain'_singleton _, ?_⟩
      intro x hx y hy
      simp only [List.head?_cons, Option.mem_def, Option.some.injEq] at hy
      subst hy
      rw [Option.mem_def] at hx
      have hx' : tlLast t0 s.stops = x.scheduled_departure := by
        rw [tlLast_eq, hx]
        rfl
      rw [harr, ← hx']
      exact i4
    · rw [hstops]; intro x hx
      rcases List.mem_append.mp hx with hx | hx
      · exact i2 x hx
      · simp only [List.mem_singleton] at hx
        subst hx
        rw [harr, hdep]
        linarith
    · rw [hstops]; intro x hx
      rcases List.mem_append.mp hx with hx | hx
      · exact i3 x hx
      · simp only [List.mem_singleton] at hx
        subst hx
        rw [harr]
        exact le_trans ht0last i4
    · rw [hstops, tlLast_append, tlLast_single, hdep, hct]
    · rw [hdt]; exact i5
    · intro h
      rw [hdt]
      exact i6 (by rw [← hcdm]; exact h)
    · rw [hstops, buildTimeline_append, scanAcc_append, i7, Option.some_bind]
      have hsingle := scanAcc_single_stop (tlLast t0 s.stops)
        (tlCity c st s.stops).1 (tlCity c st s.stops).2 stop
        (s.driving_today - (s.current_time - tlLast t0 s.stops))
        (by rw [harr]; exact i4)
        (by rw [harr, MAX_DRIVING_HOURS]
            rw [HOS_MAX_DRIVING_DAILY] at i5
            linarith)
      rw [hsingle.2.2 (by rw [htype]; exact map_status_DROPOFF _ _ _)]
      rw [tlLast_append, tlLast_single, hdt, hct, hdep, harr]
      congr 1
      ring

theorem calculate_hos_stops_stops_eq (fuel : ℕ) (dist : (ℚ × ℚ) → (ℚ × ℚ) → ℚ)
    (revGeo : ℚ → ℚ → String × String) (dm dh : ℚ) (g : List (ℚ × ℚ))
    (t0 cch asp : ℚ) (ip idp : Bool) (oc os dc ds : String) (sk : Bool) :
    (calculate_hos_stops fuel dist revGeo dm dh g t0 cch asp ip idp
        oc os dc ds sk).1 =
      (planDropoff g dm idp dc ds (planFinalSegment dm (planLoop
        { distance_miles := dm, average_speed_mph := asp, geometry := g,
          dist := dist, revGeo := revGeo, skip_reverse_geocoding := sk } fuel
        (planInit g t0 ip oc os)))).stops := rfl

/-- **C3.** The stop plan emitted by `calculate_hos_stops`, turned into a duty
timeline by `generate_logbook_timeline`, always passes the validator's
driving-limit check `ensure_driving_limits`: along the timeline, cumulative
driving between off-duty/sleeper events of at least `MINIMUM_REST_HOURS` never
exceeds `MAX_DRIVING_HOURS + 0.02`.  This holds for every input — any route
length, speed, fuel bound, geometry, and flag combination. -/
theorem calculate_hos_stops_passes_driving_limits
    (fuel : ℕ) (dist : (ℚ × ℚ) → (ℚ × ℚ) → ℚ) (revGeo : ℚ → ℚ → String × String)
    (distance_miles duration_hours : ℚ) (geometry : List (ℚ × ℚ))
    (start_time current_cycle_hours average_speed_mph : ℚ)
    (include_pickup include_dropoff : Bool)
    (origin_city origin_state destination_city destination_state : String)
    (skip_reverse_geocoding : Bool) :
    ensure_driving_limits
      (generate_logbook_timeline
        (calculate_hos_stops fuel dist revGeo distance_miles duration_hours geometry
          start_time current_cycle_hours average_speed_mph include_pickup
          include_dropoff origin_city origin_state destination_city destination_state
          skip_reverse_geocoding).1
        start_time origin_city origin_state) = true := by
  rw [calculate_hos_stops_stops_eq]
  set p : PlanParams :=
    { distance_miles := distance_miles, average_speed_mph := average_speed_mph,
      geometry := geometry, dist := dist, revGeo := revGeo,
      skip_reverse_geocoding := skip_reverse_geocoding } with hp
  have h1 := planInit_inv p geometry start_time include_pickup origin_city origin_state
    (strOr origin_city "Unknown") (strOr origin_state "")
  have h2 := planLoop_inv p start_time _ _ fuel _ h1
  have h3 := planFinalSegment_inv p start_time _ _ distance_miles _ h2
  have h4 := planDropoff_inv p geometry distance_miles include_dropoff destination_city
    destination_state start_time _ _ _ h3
  exact inv_timeline_pass p start_time origin_city origin_state _ h4

theorem planLoop_succ (p : PlanParams) (n : ℕ) (s : PlanState) :
    planLoop p (n + 1) s =
      if s.current_distance_miles < p.distance_miles then planLoop p n (planStep p s)
      else s := rfl

def c1dist : (ℚ × ℚ) → (ℚ × ℚ) → ℚ := fun _ _ => 0

def c1rev : ℚ → ℚ → String × String := fun _ _ => ("", "")

def c1p : PlanParams :=
  { distance_miles := 55, average_speed_mph := 55, geometry := [],
    dist := c1dist, revGeo := c1rev, skip_reverse_geocoding := true }

def c1pickup : RouteStop :=
  { type := "PICKUP", lat := 0, lng := 0,
    label := "Pickup - Loading & Inspection",
    duration_minutes := HOS_PICKUP_DURATION,
    distance_from_start_miles := 0, driving_hours_from_start := 0,
    scheduled_arrival := 0, scheduled_departure := 1,
    city := "A", state := "AA" }

def c1drop : RouteStop :=
  { type := "DROPOFF", lat := 0, lng := 0,
    label := "Dropoff - Unloading & Paperwork",
    duration_minutes := HOS_DROPOFF_DURATION,
    distance_from_start_miles := 55, driving_hours_from_start := 1,
    scheduled_arrival := 2, scheduled_departure := 3,
    city := "B", state := "BB" }

def c1s0 : PlanState :=
  { stops := [c1pickup], segments := [], driving_since_break := 0,
    driving_today := 0, duty_window_start := 0, miles_since_fuel := 0,
    total_driving := 0, current_distance_miles := 0, current_time := 1,
    segment_start_time := 1, segment_start_miles := 0 }

def c1s1 : PlanState :=
  { stops := [c1pickup], segments := [], driving_since_break := 1,
    driving_today := 1, duty_window_start := 0, miles_since_fuel := 55,
    total_driving := 1, current_distance_miles := 55, current_time := 2,
    segment_start_time := 1, segment_start_miles := 0 }

def c1seg : DrivingSegment :=
  { start_miles := 0, end_miles := 55, start_time := 1, end_time := 2, hours := 1 }

def c1s2 : PlanState := { c1s1 with segments := [c1seg] }

def c1s3 : PlanState := { c1s2 with stops := [c1pickup, c1drop], current_time := 3 }

theorem c1_planInit_eval : planInit [] 0 true "A" "AA" = c1s0 := by
  norm_num [planInit, c1s0, c1pickup, HOS_PICKUP_DURATION]

theorem c1_drive_hours_eval : drive_hours c1p c1s0 = 1 := by
  norm_num [drive_hours, hosMin, remaining_hours, hours_until_break,
    hours_until_daily_limit, hours_until_window_limit, hours_until_fuel,
    c1p, c1s0, HOS_MAX_DRIVING_BEFORE_BREAK, HOS_MAX_DRIVING_DAILY,
    HOS_MAX_ON_DUTY_WINDOW, HOS_FUEL_INTERVAL_MILES, min_def]

theorem c1_stepDriven_eval : stepDriven c1p c1s0 = c1s1 := by
  rw [stepDriven]
  simp only [c1_drive_hours_eval]
  norm_num [c1p, c1s0, c1s1]

theorem c1_stop_needed_eval : stop_needed c1s1 = none := by
  norm_num [stop_needed, c1s1, HOS_MAX_DRIVING_DAILY, HOS_MAX_ON_DUTY_WINDOW,
    HOS_MAX_DRIVING_BEFORE_BREAK, HOS_FUEL_INTERVAL_MILES]

theorem c1_planStep_eval : planStep c1p c1s0 = c1s1 := by
  rw [planStep_eq, c1_stepDriven_eval, c1_stop_needed_eval]

theorem c1_planLoop_eval : planLoop c1p 3 c1s0 = c1s1 := by
  rw [show (3 : ℕ) = 2 + 1 from rfl, planLoop_succ,
    if_pos (by norm_num [c1s0, c1p] : c1s0.current_distance_miles < c1p.distance_miles),
    c1_planStep_eval,
    show (2 : ℕ) = 1 + 1 from rfl, planLoop_succ,
    if_neg (by norm_num [c1s1, c1p] : ¬ c1s1.current_distance_miles < c1p.distance_miles)]

theorem c1_planFinalSegment_eval : planFinalSegment 55 c1s1 = c1s2 := by
  norm_num [planFinalSegment, c1s1, c1s2, c1seg, sumHours]

theorem c1_planDropoff_eval : planDropoff [] 55 true "B" "BB" c1s2 = c1s3 := by
  norm_num [planDropoff, c1s2, c1s3, c1s1, c1drop, HOS_DROPOFF_DURATION,
    round1, round2, round_eq]

theorem c1_stops_eval :
    (calculate_hos_stops 3 c1dist c1rev 55 1 [] 0 69 55 true true
      "A" "AA" "B" "BB" true).1 = [c1pickup, c1drop] := by
  rw [calculate_hos_stops_stops_eq]
  show (planDropoff [] 55 true "B" "BB"
    (planFinalSegment 55 (planLoop c1p 3 (planInit [] 0 true "A" "AA")))).stops =
    [c1pickup, c1drop]
  rw [c1_planInit_eval, c1_planLoop_eval, c1_planFinalSegment_eval, c1_planDropoff_eval]
  rfl

theorem c1_total_eval :
    total_on_duty (generate_logbook_timeline [c1pickup, c1drop] 0 "A" "AA") = 3 := by
  norm_num [generate_logbook_timeline, strOr, sortedBy, insertSortedBy,
    buildTimeline, c1pickup, c1drop, map_stop_to_duty_status, drivingRemark,
    total_on_duty, LogbookSegment.duration_hours, List.filter, List.foldl,
    STATUS_ON_DUTY, STATUS_DRIVING, STATUS_OFF_DUTY, STATUS_SLEEPER]

/-- **C1 counterexample.** The route-aware planner performs no 70-hour-cycle
pre-check: on a concrete 55-mile trip starting with 69 h of cycle already
used, `calculate_hos_stops` emits its stops unconditionally (pickup and
dropoff here), even though the trip's projected on-duty total is 3 h and
`69 + 3 > MAX_CYCLE_HOURS`, so `validate_cycle_hours` rejects the very
timeline generated from those stops.  The original claim — that planning
aborts before any stops are emitted whenever the projected total exceeds
70 h — is therefore false of `calculate_hos_stops`. -/
theorem cycle_precheck_missing_counterexample :
    (calculate_hos_stops 3 c1dist c1rev 55 1 [] 0 69 55 true true
        "A" "AA" "B" "BB" true).1 ≠ [] ∧
    MAX_CYCLE_HOURS < 69 + total_on_duty
      (generate_logbook_timeline
        (calculate_hos_stops 3 c1dist c1rev 55 1 [] 0 69 55 true true
          "A" "AA" "B" "BB" true).1 0 "A" "AA") ∧
    validate_cycle_hours 69
      (generate_logbook_timeline
        (calculate_hos_stops 3 c1dist c1rev 55 1 [] 0 69 55 true true
          "A" "AA" "B" "BB" true).1 0 "A" "AA") =
      Except.error { current_hours := 69, projected_hours := 3 } := by
  refine ⟨?_, ?_, ?_⟩
  · rw [c1_stops_eval]
    simp
  · rw [c1_stops_eval, c1_total_eval]
    norm_num [MAX_CYCLE_HOURS]
  · rw [c1_stops_eval, validate_cycle_hours]
    simp only [c1_total_eval]
    rw [if_pos (by norm_num [MAX_CYCLE_HOURS] : (69 : ℚ) + 3 > MAX_CYCLE_HOURS)]

/-! ## Day gap filling and totals (`core/routes/logbook_generator.py`,
`_fill_day_gaps` and `_calculate_day_totals`)

Times stay in hours from the epoch: the boundaries of day `d` are `24 * d`
and `24 * (d + 1)`. -/

/-- The OFF_DUTY filler segment inserted by `_fill_day_gaps`. -/
def gapSeg (t1 t2 : ℚ) (c st : String) : LogbookSegment :=
  { start_time := t1, end_time := t2, status := STATUS_OFF_DUTY,
    city := c, state := st, remark := "Off duty" }

/-- The enumerate loop of `_fill_day_gaps`: copy each segment and insert an
OFF_DUTY filler whenever a segment ends strictly before the next one starts. -/
def fillGapsBetween : List LogbookSegment → List LogbookSegment
  | [] => []
  | [e] => [e]
  | e :: f :: rest =>
      if e.end_time < f.start_time then
        e :: gapSeg e.end_time f.start_time e.city e.state :: fillGapsBetween (f :: rest)
      else
        e :: fillGapsBetween (f :: rest)

/-- The tail of `_fill_day_gaps`: append an OFF_DUTY filler up to `day_end`
when the last filled segment ends before it.  The source reads
`filled_segments[-1]`, which is always defined; `dflt` only renders that
lookup total and never shows through. -/
def endFill (day_end : ℚ) (filled : List LogbookSegment)
    (dflt : LogbookSegment) : List LogbookSegment :=
  if (filled.getLastD dflt).end_time < day_end then
    filled ++ [gapSeg (filled.getLastD dflt).end_time day_end
      (filled.getLastD dflt).city (filled.getLastD dflt).state]
  else filled

/-- `_fill_day_gaps` after its initial sort: a leading OFF_DUTY filler from
`day_start` when the first segment starts later, the gap-filled body, then
the trailing filler to `day_end`. -/
def fillDayGapsSorted (day_start day_end : ℚ) :
    List LogbookSegment → List LogbookSegment
  | [] => []
  | first :: rest =>
      endFill day_end
        ((if day_start < first.start_time then
            [gapSeg day_start first.start_time first.city first.state]
          else []) ++ fillGapsBetween (first :: rest)) first

/-- `_fill_day_gaps` on the log day of date `day_date` (days since epoch):
sort the day segments by start time and fill the gaps out to the day
boundaries.  An empty day is returned unchanged (the source's early return). -/
def fill_day_gaps (day_date : ℤ) (segments : List LogbookSegment) :
    List LogbookSegment :=
  fillDayGapsSorted (24 * (day_date : ℚ)) (24 * ((day_date : ℚ) + 1))
    (sortedBy (fun e => e.start_time) segments)

/-- The per-status accumulation of `_calculate_day_totals` (statuses outside
the four-key dict are dropped by the `in totals` guard). -/
def statusTotal (st : String) (segments : List LogbookSegment) : ℚ :=
  (segments.filter (fun e => e.status = st)).foldl (fun a e => a + e.duration_hours) 0

/-- `_calculate_day_totals`: the four per-status totals, each rounded to two
decimals, in the order driving, on-duty, off-duty, sleeper. -/
def calculate_day_totals (segments : List LogbookSegment) : ℚ × ℚ × ℚ × ℚ :=
  (round2 (statusTotal STATUS_DRIVING segments),
   round2 (statusTotal STATUS_ON_DUTY segments),
   round2 (statusTotal STATUS_OFF_DUTY segments),
   round2 (statusTotal STATUS_SLEEPER segments))

/-- A segment carries one of the four duty statuses of the logbook. -/
def statusOk (e : LogbookSegment) : Prop :=
  e.status = STATUS_DRIVING ∨ e.status = STATUS_ON_DUTY ∨
  e.status = STATUS_OFF_DUTY ∨ e.status = STATUS_SLEEPER

theorem chain_start_le : ∀ (l : List LogbookSegment),
    List.Chain' (fun a b => a.end_time ≤ b.start_time) l →
    (∀ e ∈ l, e.start_time ≤ e.end_time) →
    List.Chain' (fun a b => a.start_time ≤ b.start_time) l
  | [], _, _ => List.chain'_nil
  | [e], _, _ => List.chain'_singleton e
  | a :: b :: l, h, h2 => by
      rw [List.chain'_cons] at h ⊢
      exact ⟨le_trans (h2 a (List.mem_cons_self a _)) h.1,
        chain_start_le (b :: l) h.2 (fun e he => h2 e (List.mem_cons_of_mem a he))⟩

theorem fillGapsBetween_cons_ex (e : LogbookSegment) : ∀ (l : List LogbookSegment),
    ∃ t, fillGapsBetween (e :: l) = e :: t
  | [] => ⟨[], rfl⟩
  | f :: rest => by
      rw [fillGapsBetween]
      split_ifs with hg
      · exact ⟨_, rfl⟩
      · exact ⟨_, rfl⟩

theorem fillGapsBetween_getLast : ∀ (l : List LogbookSegment),
    (fillGapsBetween l).getLast? = l.getLast?
  | [] => rfl
  | [e] => rfl
  | e :: f :: rest => by
      obtain ⟨t, ht⟩ := fillGapsBetween_cons_ex f rest
      have ih := fillGapsBetween_getLast (f :: rest)
      rw [fillGapsBetween]
      split_ifs with hg
      · rw [ht, List.getLast?_cons_cons, List.getLast?_cons_cons, ← ht, ih,
          List.getLast?_cons_cons]
      · rw [ht, List.getLast?_cons_cons, ← ht, ih, List.getLast?_cons_cons]

theorem fillGapsBetween_chain : ∀ (l : List LogbookSegment),
    List.Chain' (fun a b => a.end_time ≤ b.start_time) l →
    List.Chain' (fun a b => a.end_time = b.start_time) (fillGapsBetween l)
  | [], _ => List.chain'_nil
  | [e], _ => List.chain'_singleton e
  | e :: f :: rest, h => by
      rw [List.chain'_cons] at h
      have ih := fillGapsBetween_chain (f :: rest) h.2
      obtain ⟨t, ht⟩ := fillGapsBetween_cons_ex f rest
      rw [fillGapsBetween]
      rw [ht] at ih
      split_ifs with hg
      · rw [ht]
        exact List.chain'_cons.mpr ⟨rfl, List.chain'_cons.mpr ⟨rfl, ih⟩⟩
      · rw [ht]
        exact List.chain'_cons.mpr ⟨le_antisymm h.1 (not_lt.mp hg), ih⟩

theorem fillGapsBetween_status : ∀ (l : List LogbookSegment),
    (∀ x ∈ l, statusOk x) → ∀ x ∈ fillGapsBetween l, statusOk x
  | [], _ => by intro x hx; simp [fillGapsBetween] at hx
  | [e], h => by
      intro x hx
      rw [fillGapsBetween] at hx
      rw [List.mem_singleton] at hx
      rw [hx]
      exact h e (List.mem_singleton.mpr rfl)
  | e :: f :: rest, h => by
      intro x hx
      rw [fillGapsBetween] at hx
      split_ifs at hx with hg
      · rcases List.mem_cons.mp hx with rfl | hx
        · exact h _ (List.mem_cons_self _ _)
        rcases List.mem_cons.mp hx with rfl | hx
        · exact Or.inr (Or.inr (Or.inl rfl))
        · exact fillGapsBetween_status (f :: rest)
            (fun y hy => h y (List.mem_cons_of_mem _ hy)) x hx
      · rcases List.mem_cons.mp hx with rfl | hx
        · exact h _ (List.mem_cons_self _ _)
        · exact fillGapsBetween_status (f :: rest)
            (fun y hy => h y (List.mem_cons_of_mem _ hy)) x hx

theorem getLastD_eq {α : Type} : ∀ (l : List α) (dflt x : α),
    l.getLast? = some x → l.getLastD dflt = x
  | [], _, x, h => by simp at h
  | [a], dflt, x, h => by
      simp only [List.getLast?_singleton, Option.some.injEq] at h
      rw [← h]
      rfl
  | a :: b :: l, dflt, x, h => by
      rw [List.getLast?_cons_cons] at h
      have ih := getLastD_eq (b :: l) a x h
      show (b :: l).getLastD a = x
      exact ih

theorem endFill_eval (day_end : ℚ) (filled : List LogbookSegment)
    (dflt b : LogbookSegment) (hb : filled.getLast? = some b) :
    endFill day_end filled dflt =
      if b.end_time < day_end then
        filled ++ [gapSeg b.end_time day_end b.city b.state]
      else filled := by
  rw [endFill, getLastD_eq filled dflt b hb]

theorem sumDur_contig : ∀ (l : List LogbookSegment),
    List.Chain' (fun x y => x.end_time = y.start_time) l →
    ∀ a, l.head? = some a → ∀ b, l.getLast? = some b →
    (l.map (fun e => e.duration_hours)).sum = b.end_time - a.start_time
  | [], _, a, ha, _, _ => by simp at ha
  | [x], _, a, ha, b, hb => by
      simp only [List.head?_cons, Option.some.injEq] at ha
      simp only [List.getLast?_singleton, Option.some.injEq] at hb
      subst ha
      subst hb
      simp [LogbookSegment.duration_hours]
  | x :: y :: l, h, a, ha, b, hb => by
      rw [List.chain'_cons] at h
      simp only [List.head?_cons, Option.some.injEq] at ha
      subst ha
      rw [List.getLast?_cons_cons] at hb
      have ih := sumDur_contig (y :: l) h.2 y rfl b hb
      rw [List.map_cons, List.sum_cons, ih, LogbookSegment.duration_hours]
      have := h.1
      linarith

theorem foldl_dur_acc : ∀ (l : List LogbookSegment) (acc : ℚ),
    l.foldl (fun a e => a + e.duration_hours) acc =
      acc + l.foldl (fun a e => a + e.duration_hours) 0
  | [], acc => by simp
  | e :: l, acc => by
      rw [List.foldl_cons, List.foldl_cons,
        foldl_dur_acc l (acc + e.duration_hours),
        foldl_dur_acc l (0 + e.duration_hours)]
      ring

theorem statusTotal_cons (st : String) (e : LogbookSegment) (l : List LogbookSegment) :
    statusTotal st (e :: l) =
      (if e.status = st then e.duration_hours else 0) + statusTotal st l := by
  rw [statusTotal, statusTotal, List.filter_cons]
  by_cases h : e.status = st
  · rw [if_pos (by simp [h]), if_pos h, List.foldl_cons, foldl_dur_acc]
    ring
  · rw [if_neg (by simp [h]), if_neg h]
    ring

theorem sum_dur_partition : ∀ (l : List LogbookSegment), (∀ e ∈ l, statusOk e) →
    statusTotal STATUS_DRIVING l + statusTotal STATUS_ON_DUTY l +
      statusTotal STATUS_OFF_DUTY l + statusTotal STATUS_SLEEPER l =
      (l.map (fun e => e.duration_hours)).sum
  | [], _ => by simp [statusTotal]
  | e :: l, h => by
      have ih := sum_dur_partition l (fun x hx => h x (List.mem_cons_of_mem e hx))
      have he := h e (List.mem_cons_self e l)
      rw [statusTotal_cons, statusTotal_cons, statusTotal_cons, statusTotal_cons,
        List.map_cons, List.sum_cons]
      rcases he with h1 | h1 | h1 | h1 <;>
        simp [h1, STATUS_DRIVING, STATUS_ON_DUTY, STATUS_OFF_DUTY, STATUS_SLEEPER]
          at ih ⊢ <;>
        linarith

theorem round2_sum4 (a b c d : ℚ) (h : a + b + c + d = 24) :
    |round2 a + round2 b + round2 c + round2 d - 24| ≤ 1 / 50 := by
  have ha := abs_round2_sub_le a
  have hb := abs_round2_sub_le b
  have hc := abs_round2_sub_le c
  have hd := abs_round2_sub_le d
  rw [abs_le] at ha hb hc hd ⊢
  constructor <;> linarith

theorem day_totals_bound (F : List LogbookSegment) (a b : LogbookSegment)
    (hch : List.Chain' (fun x y => x.end_time = y.start_time) F)
    (hh : F.head? = some a) (hl : F.getLast? = some b)
    (hab : b.end_time - a.start_time = 24)
    (hstatF : ∀ x ∈ F, statusOk x) :
    |(calculate_day_totals F).1 + (calculate_day_totals F).2.1 +
      (calculate_day_totals F).2.2.1 + (calculate_day_totals F).2.2.2 - 24| ≤ 1 / 50 := by
  have hsum := sumDur_contig F hch a hh b hl
  have hpart := sum_dur_partition F hstatF
  rw [calculate_day_totals]
  exact round2_sum4 _ _ _ _ (by rw [hpart, hsum, hab])

theorem endFill_build (F0 : List LogbookSegment) (DE : ℚ) (dflt a b : LogbookSegment)
    (hch : List.Chain' (fun x y => x.end_time = y.start_time) F0)
    (hh : F0.head? = some a) (hl : F0.getLast? = some b)
    (hstat : ∀ x ∈ F0, statusOk x)
    (hble : b.end_time ≤ DE) :
    List.Chain' (fun x y => x.end_time = y.start_time) (endFill DE F0 dflt) ∧
    (endFill DE F0 dflt).head? = some a ∧
    (∃ b2, (endFill DE F0 dflt).getLast? = some b2 ∧ b2.end_time = DE) ∧
    (∀ x ∈ endFill DE F0 dflt, statusOk x) := by
  obtain ⟨t0, rfl⟩ : ∃ t0, F0 = a :: t0 := by
    cases F0 with
    | nil => simp at hh
    | cons x t =>
        simp only [List.head?_cons, Option.some.injEq] at hh
        exact ⟨t, by rw [hh]⟩
  rw [endFill_eval DE (a :: t0) dflt b hl]
  by_cases hB : b.end_time < DE
  · rw [if_pos hB]
    refine ⟨?_, ?_, ⟨gapSeg b.end_time DE b.city b.state, ?_, rfl⟩, ?_⟩
    · rw [List.chain'_append]
      refine ⟨hch, List.chain'_singleton _, ?_⟩
      intro x hx y hy
      simp only [List.head?_cons, Option.mem_def, Option.some.injEq] at hy
      subst hy
      rw [Option.mem_def, hl, Option.some.injEq] at hx
      subst hx
      rfl
    · rw [List.cons_append, List.head?_cons]
    · exact List.getLast?_concat _
    · intro x hx
      rcases List.mem_append.mp hx with hx | hx
      · exact hstat x hx
      · rw [List.mem_singleton] at hx
        subst hx
        exact Or.inr (Or.inr (Or.inl rfl))
  · rw [if_neg hB]
    exact ⟨hch, hh, ⟨b, hl, le_antisymm hble (not_lt.mp hB)⟩, hstat⟩

/-- **C2.** On any nonempty log day whose segments lie inside day `d`, are
well-formed (`start ≤ end`) and non-overlapping in order, `_fill_day_gaps`
makes the day contiguous — consecutive segments share their boundary
instant, the first segment starts at the day's midnight `24 d` and the last
ends at the next midnight `24 (d + 1)` — and the four per-status totals of
`_calculate_day_totals` (each rounded to two decimals) sum to 24 within
`0.02`. -/
theorem fill_day_gaps_day_coverage (d : ℤ) (segs : List LogbookSegment)
    (hne : segs ≠ [])
    (hchain : List.Chain' (fun a b => a.end_time ≤ b.start_time) segs)
    (hin : ∀ e ∈ segs, 24 * (d : ℚ) ≤ e.start_time ∧
      e.end_time ≤ 24 * ((d : ℚ) + 1) ∧ e.start_time ≤ e.end_time)
    (hstat : ∀ e ∈ segs, statusOk e) :
    List.Chain' (fun a b => a.end_time = b.start_time) (fill_day_gaps d segs) ∧
    ((fill_day_gaps d segs).head?).map (fun e => e.start_time) =
      some (24 * (d : ℚ)) ∧
    ((fill_day_gaps d segs).getLast?).map (fun e => e.end_time) =
      some (24 * ((d : ℚ) + 1)) ∧
    |(calculate_day_totals (fill_day_gaps d segs)).1 +
      (calculate_day_totals (fill_day_gaps d segs)).2.1 +
      (calculate_day_totals (fill_day_gaps d segs)).2.2.1 +
      (calculate_day_totals (fill_day_gaps d segs)).2.2.2 - 24| ≤ 1 / 50 := by
  obtain ⟨e0, rest, rfl⟩ : ∃ e0 rest, segs = e0 :: rest := by
    cases segs with
    | nil => exact absurd rfl hne
    | cons a l => exact ⟨a, l, rfl⟩
  have hsort : sortedBy (fun e => e.start_time) (e0 :: rest) = e0 :: rest :=
    sortedBy_eq_self _ _ (chain_start_le _ hchain (fun e he => (hin e he).2.2))
  obtain ⟨t, ht⟩ := fillGapsBetween_cons_ex e0 rest
  have hmidlast : (fillGapsBetween (e0 :: rest)).getLast? = (e0 :: rest).getLast? :=
    fillGapsBetween_getLast _
  have hmidchain := fillGapsBetween_chain (e0 :: rest) hchain
  have hmidstat := fillGapsBetween_status (e0 :: rest) hstat
  have hgl : (e0 :: rest).getLast? =
      some ((e0 :: rest).getLast (List.cons_ne_nil e0 rest)) :=
    List.getLast?_eq_getLast _ _
  have hbmem : (e0 :: rest).getLast (List.cons_ne_nil e0 rest) ∈ e0 :: rest :=
    List.getLast_mem _
  have hb_end : ((e0 :: rest).getLast (List.cons_ne_nil e0 rest)).end_time ≤
      24 * ((d : ℚ) + 1) := (hin _ hbmem).2.1
  have he0_start : 24 * (d : ℚ) ≤ e0.start_time := (hin e0 (List.mem_cons_self e0 rest)).1
  rw [fill_day_gaps, hsort, fillDayGapsSorted]
  by_cases hA : 24 * (d : ℚ) < e0.start_time
  · rw [if_pos hA, List.singleton_append]
    have hch0 : List.Chain' (fun x y => x.end_time = y.start_time)
        (gapSeg (24 * (d : ℚ)) e0.start_time e0.city e0.state ::
          fillGapsBetween (e0 :: rest)) := by
      rw [ht]
      exact List.chain'_cons.mpr ⟨rfl, ht ▸ hmidchain⟩
    have hh0 : (gapSeg (24 * (d : ℚ)) e0.start_time e0.city e0.state ::
        fillGapsBetween (e0 :: rest)).head? =
        some (gapSeg (24 * (d : ℚ)) e0.start_time e0.city e0.state) := rfl
    have hl0 : (gapSeg (24 * (d : ℚ)) e0.start_time e0.city e0.state ::
        fillGapsBetween (e0 :: rest)).getLast? =
        some ((e0 :: rest).getLast (List.cons_ne_nil e0 rest)) := by
      rw [ht, List.getLast?_cons_cons, ← ht, hmidlast, hgl]
    have hst0 : ∀ x ∈ gapSeg (24 * (d : ℚ)) e0.start_time e0.city e0.state ::
        fillGapsBetween (e0 :: rest), statusOk x := by
      intro x hx
      rcases List.mem_cons.mp hx with rfl | hx
      · exact Or.inr (Or.inr (Or.inl rfl))
      · exact hmidstat x hx
    obtain ⟨hc, hh2, ⟨b2, hl2, hb2⟩, hstF⟩ :=
      endFill_build _ (24 * ((d : ℚ) + 1)) e0 _ _ hch0 hh0 hl0 hst0 hb_end
    refine ⟨hc, ?_, ?_, ?_⟩
    · rw [hh2, Option.map_some']
      rfl
    · rw [hl2, Option.map_some', hb2]
    · exact day_totals_bound _ _ _ hc hh2 hl2
        (by
          rw [hb2]
          show 24 * ((d : ℚ) + 1) - 24 * (d : ℚ) = 24
          ring) hstF
  · rw [if_neg hA, List.nil_append]
    have he0eq : e0.start_time = 24 * (d : ℚ) := le_antisymm (not_lt.mp hA) he0_start
    have hh0 : (fillGapsBetween (e0 :: rest)).head? = some e0 := by
      rw [ht, List.head?_cons]
    have hl0 : (fillGapsBetween (e0 :: rest)).getLast? =
        some ((e0 :: rest).getLast (List.cons_ne_nil e0 rest)) := by
      rw [hmidlast, hgl]
    obtain ⟨hc, hh2, ⟨b2, hl2, hb2⟩, hstF⟩ :=
      endFill_build _ (24 * ((d : ℚ) + 1)) e0 _ _ hmidchain hh0 hl0 hmidstat hb_end
    refine ⟨hc, ?_, ?_, ?_⟩
    · rw [hh2, Option.map_some', he0eq]
    · rw [hl2, Option.map_some', hb2]
    · exact day_totals_bound _ _ _ hc hh2 hl2 (by rw [hb2, he0eq]; ring) hstF

def c2seg : LogbookSegment :=
  { start_time := 1, end_time := 2, status := STATUS_ON_DUTY,
    city := "X", state := "XX", remark := "On duty" }

theorem fill_day_gaps_day_coverage_witness :
    (([c2seg] : List LogbookSegment) ≠ [] ∧
      List.Chain' (fun a b => a.end_time ≤ b.start_time) [c2seg] ∧
      (∀ e ∈ [c2seg], 24 * ((0 : ℤ) : ℚ) ≤ e.start_time ∧
        e.end_time ≤ 24 * (((0 : ℤ) : ℚ) + 1) ∧ e.start_time ≤ e.end_time) ∧
      (∀ e ∈ [c2seg], statusOk e)) ∧
    (List.Chain' (fun a b => a.end_time = b.start_time) (fill_day_gaps 0 [c2seg]) ∧
      ((fill_day_gaps 0 [c2seg]).head?).map (fun e => e.start_time) =
        some (24 * ((0 : ℤ) : ℚ)) ∧
      ((fill_day_gaps 0 [c2seg]).getLast?).map (fun e => e.end_time) =
        some (24 * (((0 : ℤ) : ℚ) + 1)) ∧
      |(calculate_day_totals (fill_day_gaps 0 [c2seg])).1 +
        (calculate_day_totals (fill_day_gaps 0 [c2seg])).2.1 +
        (calculate_day_totals (fill_day_gaps 0 [c2seg])).2.2.1 +
        (calculate_day_totals (fill_day_gaps 0 [c2seg])).2.2.2 - 24| ≤ 1 / 50) :=
  ⟨⟨by simp, List.chain'_singleton c2seg,
    by
      intro e he
      rw [List.mem_singleton] at he
      subst he
      refine ⟨?_, ?_, ?_⟩ <;> norm_num [c2seg],
    by
      intro e he
      rw [List.mem_singleton] at he
      subst he
      exact Or.inr (Or.inl rfl)⟩,
   fill_day_gaps_day_coverage 0 [c2seg] (by simp)
     (List.chain'_singleton c2seg)
     (by
       intro e he
       rw [List.mem_singleton] at he
       subst he
       refine ⟨?_, ?_, ?_⟩ <;> norm_num [c2seg])
     (by
       intro e he
       rw [List.mem_singleton] at he
       subst he
       exact Or.inr (Or.inl rfl))⟩

end TDLogbook
